import Mathlib

/-!
Shallow embedding of the auction/bid/ledger core of the game server
(Server/app of this repository) and proofs about it.

Conventions of the embedding:

* Monetary values are integers counted in cents.  Every money column in the
  source is a two-decimal Numeric, and every amount entering the system is
  validated by the API schemas to have at most two decimal places
  (decimal_places=2 on BidCreate.amount, AuctionCreate.start_price,
  HeroGenerateRequest.currency, BetIn.amount), so Decimal quantization to
  two decimals, which the services apply on write, is the identity on this
  domain and integer cents represent it exactly.
* Time is a natural number (seconds).  Each service reads the clock through
  datetime.utcnow(); the embedding passes the reading as a parameter named
  now.
* Database rows are records in lists; SELECT ... FOR UPDATE row locks
  serialize the transactions, so a committed run of a service method is a
  pure function from the committed database state to the next committed
  state.  A method that raises rolls its transaction back, which the trace
  semantics renders by keeping the previous state (the one exception is
  generate_and_store, where the source commits in the middle; its embedding
  returns the committed state explicitly).
* Randomness in hero generation (the retry loop of generate_hero) enters as
  the parameter genFails: the number of failed success-probability rolls
  before the first successful one.
-/

deriving instance DecidableEq for Except

namespace Arena

/-- app.core.enums.AuctionStatus. -/
inductive AuctionStatus
  | active
  | finished
  | cancelled
  | expired
deriving DecidableEq, Repr

/-- Error kinds raised by the embedded services (each constructor corresponds
to an HTTPException call site in the source). -/
inductive Err
  | notActive          -- 400 "Auction is not active" / "Auction lot is not active"
  | selfBid            -- 400 "Seller cannot bid on own auction/lot"
  | bidTooLow          -- 400 "Bid must be higher than current price"
  | insufficientFunds  -- 400 "Insufficient funds" (bid check and balance adjustment)
  | invalidReserved    -- 400 "Reserved balance cannot be negative"
  | userNotFound       -- 404 "User not found ..."
  | notFound           -- 404 missing auction / lot / hero
  | lockUsersFailed    -- 500 "Failed to lock winner or seller user"
  | insufficientStock  -- 403 "Seller does not own enough of this item"
  | heroLimit          -- 400 "Maximum heroes limit reached"
  | generationFailed   -- 429 too many failed generation attempts
  | invalidGeneration  -- 400 "Invalid generation level"
  | invalidDuration    -- 422 pydantic validator on AuctionCreate.duration
deriving DecidableEq, Repr

/-- Which user column a ledger movement applied to: the field argument of
AccountingService.adjust_balance.  The currency_transactions table itself
stores no field column; the embedding keeps the value each call site passed
so that the per-field reconciliation sums of the specification can be
stated. -/
inductive MoneyField
  | balance
  | reserved
deriving DecidableEq, Repr

/-- app.database.models.user.User (the money columns). -/
structure UserRow where
  id : Nat
  balance : Int
  reserved : Int
deriving DecidableEq, Repr

/-- app.database.models.currency_transaction.CurrencyTransaction, one
append-only ledger row, plus the field tag of the write (see MoneyField). -/
structure LedgerEntry where
  user_id : Nat
  amount : Int
  kind : String
  reference_id : Option Nat
  fld : MoneyField
deriving DecidableEq, Repr

/-- app.database.models.models.Bid. -/
structure BidRow where
  id : Nat
  request_id : Option String
  auction_id : Option Nat
  lot_id : Option Nat
  bidder_id : Nat
  amount : Int
deriving DecidableEq, Repr

/-- app.database.models.models.Auction. -/
structure AuctionRow where
  id : Nat
  item_id : Nat
  seller_id : Nat
  quantity : Nat
  start_price : Int
  current_price : Int
  end_time : Nat
  status : AuctionStatus
  winner_id : Option Nat
  created_at : Nat
deriving DecidableEq, Repr

/-- app.database.models.models.AuctionLot. -/
structure LotRow where
  id : Nat
  hero_id : Nat
  seller_id : Nat
  starting_price : Int
  current_price : Int
  buyout_price : Option Int
  end_time : Nat
  status : AuctionStatus
  winner_id : Option Nat
deriving DecidableEq, Repr

/-- app.database.models.models.AutoBid. -/
structure AutoBidRow where
  user_id : Nat
  auction_id : Option Nat
  lot_id : Option Nat
  max_amount : Int
deriving DecidableEq, Repr

/-- app.database.models.hero.Hero (the columns the auction core reads). -/
structure HeroRow where
  id : Nat
  owner_id : Nat
  generation : Nat
  is_training : Bool
  is_dead : Bool
  is_on_auction : Bool
  is_deleted : Bool
  has_equipment : Bool
deriving DecidableEq, Repr

/-- app.database.models.hero.HeroPerk. -/
structure HeroPerkRow where
  hero_id : Nat
  perk_id : Nat
deriving DecidableEq, Repr

/-- app.database.models.models.Stash. -/
structure StashRow where
  user_id : Nat
  item_id : Nat
  quantity : Nat
deriving DecidableEq, Repr

/-- The committed database state (plus the Redis key space used by
app.core.distributed_lock, so that statements about the distributed-lock
keys can be made). -/
structure DB where
  users : List UserRow
  ledger : List LedgerEntry
  auctions : List AuctionRow
  lots : List LotRow
  bids : List BidRow
  autobids : List AutoBidRow
  heroes : List HeroRow
  hero_perks : List HeroPerkRow
  stash : List StashRow
  redis : List (String × String)
  nextBid : Nat
  nextHero : Nat
deriving DecidableEq, Repr

/-- SELECT User WHERE id = uid (first row). -/
def findUser (db : DB) (uid : Nat) : Option UserRow :=
  db.users.find? (fun u => u.id == uid)

/-- SELECT Auction WHERE id = aid (no status filter). -/
def findAuction (db : DB) (aid : Nat) : Option AuctionRow :=
  db.auctions.find? (fun a => a.id == aid)

/-- SELECT Auction WHERE id = aid AND status = ACTIVE, as in
BidService.place_bid. -/
def findActiveAuction (db : DB) (aid : Nat) : Option AuctionRow :=
  db.auctions.find? (fun a => a.id == aid && a.status == AuctionStatus.active)

/-- SELECT AuctionLot WHERE id = lid. -/
def findLot (db : DB) (lid : Nat) : Option LotRow :=
  db.lots.find? (fun l => l.id == lid)

/-- SELECT AuctionLot WHERE id = lid AND status = ACTIVE, as in
BidService.place_lot_bid. -/
def findActiveLot (db : DB) (lid : Nat) : Option LotRow :=
  db.lots.find? (fun l => l.id == lid && l.status == AuctionStatus.active)

/-- SELECT Hero WHERE id = hid. -/
def findHero (db : DB) (hid : Nat) : Option HeroRow :=
  db.heroes.find? (fun h => h.id == hid)

/-- SELECT Bid WHERE request_id = r (unique index on bids.request_id). -/
def findBidByRequest (db : DB) (r : String) : Option BidRow :=
  db.bids.find? (fun b => b.request_id == some r)

/-- The row with the maximal amount, scanning left to right (SELECT ...
ORDER BY amount DESC LIMIT 1; amounts on one auction/lot are pairwise
distinct in reachable states because each accepted bid strictly exceeds
current_price). -/
def maxBid : Option BidRow → List BidRow → Option BidRow
  | acc, [] => acc
  | none, b :: rest => maxBid (some b) rest
  | some a, b :: rest => maxBid (some (if a.amount < b.amount then b else a)) rest

/-- Highest bid of an item auction. -/
def highestAuctionBid (db : DB) (aid : Nat) : Option BidRow :=
  maxBid none (db.bids.filter (fun b => b.auction_id == some aid))

/-- Highest bid of a hero lot. -/
def highestLotBid (db : DB) (lid : Nat) : Option BidRow :=
  maxBid none (db.bids.filter (fun b => b.lot_id == some lid))

/-- Stash quantity of (uid, item); 0 when the row is absent. -/
def stashQty (db : DB) (uid item : Nat) : Nat :=
  match db.stash.find? (fun s => s.user_id == uid && s.item_id == item) with
  | some s => s.quantity
  | none => 0

/-- Increment the stash row of (uid, item) by qty, inserting the row when it
is absent.  This is the lock-or-insert increment used by close_auction,
cancel_auction and the no-bid branch of close. -/
def stashAdd (db : DB) (uid item qty : Nat) : DB :=
  if db.stash.any (fun s => s.user_id == uid && s.item_id == item) then
    { db with stash := db.stash.map (fun s =>
        if s.user_id == uid && s.item_id == item then
          { s with quantity := s.quantity + qty } else s) }
  else
    { db with stash := db.stash ++ [⟨uid, item, qty⟩] }

/-- AccountingService.adjust_balance: re-read the user under a row lock,
add the delta to the chosen column failing on a negative result, write the
new value and append one ledger row.  Never commits; the caller owns the
transaction.  (Decimal quantization to two decimals is the identity on
integer cents.) -/
def adjust_balance (uid : Nat) (amount : Int) (kind : String)
    (ref : Option Nat) (fld : MoneyField) (db : DB) : Except Err DB :=
  match findUser db uid with
  | none => .error .userNotFound
  | some u =>
    match fld with
    | .balance =>
      if u.balance + amount < 0 then .error .insufficientFunds
      else .ok { db with
        users := db.users.map (fun v =>
          if v.id == uid then { v with balance := u.balance + amount } else v),
        ledger := db.ledger ++ [⟨uid, amount, kind, ref, .balance⟩] }
    | .reserved =>
      if u.reserved + amount < 0 then .error .invalidReserved
      else .ok { db with
        users := db.users.map (fun v =>
          if v.id == uid then { v with reserved := u.reserved + amount } else v),
        ledger := db.ledger ++ [⟨uid, amount, kind, ref, .reserved⟩] }

/-- The pre-transaction idempotency lookup of BidService.place_bid and
place_lot_bid: only a non-empty request_id is consulted (if request_id: is
false for None and for the empty string). -/
def idempotencyHit (rid : Option String) (db : DB) : Option BidRow :=
  match rid with
  | some r => if r = "" then none else findBidByRequest db r
  | none => none

/-- The previous-highest-bidder release step of BidService.place_bid /
place_lot_bid: when the current highest bid of the target exists and belongs
to a different user, lock that user and release the amount of that bid from
the reserved column through the Ledger (type bid_release_reserved).  prev is
the highest bid, ref the auction or lot id. -/
def bid_release_prev (prev : Option BidRow) (bidder_id : Nat) (ref : Nat)
    (db : DB) : Except Err DB :=
  match prev with
  | some pb =>
    if pb.bidder_id ≠ bidder_id then
      match findUser db pb.bidder_id with
      | some _ =>
        adjust_balance pb.bidder_id (-pb.amount) "bid_release_reserved"
          (some ref) .reserved db
      | none => .ok db
    else .ok db
  | none => .ok db

/-- The auction-row update applied by place_bid (current_price := amount,
winner_id := bidder). -/
def bidAuctionUpd (aid : Nat) (amount : Int) (bidder : Nat) : AuctionRow → AuctionRow :=
  fun a => if a.id == aid then
    { a with current_price := amount, winner_id := some bidder } else a

/-- The lot-row update applied by place_lot_bid. -/
def bidLotUpd (lid : Nat) (amount : Int) (bidder : Nat) : LotRow → LotRow :=
  fun l => if l.id == lid then
    { l with current_price := amount, winner_id := some bidder } else l

/-- BidService.place_bid.  Returns the new committed state and the bid
returned to the caller; an error means the transaction rolled back and the
caller keeps the previous state. -/
def place_bid (bidder_id aid : Nat) (amount : Int) (rid : Option String)
    (now : Nat) (db : DB) : Except Err (DB × BidRow) :=
  match idempotencyHit rid db with
  | some existing => .ok (db, existing)
  | none =>
    match findActiveAuction db aid with
    | none => .error .notActive
    | some auction =>
      if auction.end_time < now then .error .notActive
      else if auction.seller_id == bidder_id then .error .selfBid
      else if amount ≤ auction.current_price then .error .bidTooLow
      else
        match findUser db bidder_id with
        | none => .error .insufficientFunds
        | some user =>
          if user.balance - user.reserved < amount then .error .insufficientFunds
          else
            match bid_release_prev (highestAuctionBid db aid) bidder_id aid db with
            | .error e => .error e
            | .ok db1 =>
              match adjust_balance bidder_id amount "bid_reserve" (some aid)
                  .reserved db1 with
              | .error e => .error e
              | .ok db2 =>
                let bid : BidRow :=
                  ⟨db2.nextBid, rid, some aid, none, bidder_id, amount⟩
                .ok ({ db2 with
                  bids := db2.bids ++ [bid],
                  auctions := db2.auctions.map (bidAuctionUpd aid amount bidder_id),
                  nextBid := db2.nextBid + 1 }, bid)

/-- BidService.place_lot_bid; same shape as place_bid against AuctionLot. -/
def place_lot_bid (bidder_id lid : Nat) (amount : Int) (rid : Option String)
    (now : Nat) (db : DB) : Except Err (DB × BidRow) :=
  match idempotencyHit rid db with
  | some existing => .ok (db, existing)
  | none =>
    match findActiveLot db lid with
    | none => .error .notActive
    | some lot =>
      if lot.end_time < now then .error .notActive
      else if lot.seller_id == bidder_id then .error .selfBid
      else if amount ≤ lot.current_price then .error .bidTooLow
      else
        match findUser db bidder_id with
        | none => .error .insufficientFunds
        | some user =>
          if user.balance - user.reserved < amount then .error .insufficientFunds
          else
            match bid_release_prev (highestLotBid db lid) bidder_id lid db with
            | .error e => .error e
            | .ok db1 =>
              match adjust_balance bidder_id amount "bid_reserve" (some lid)
                  .reserved db1 with
              | .error e => .error e
              | .ok db2 =>
                let bid : BidRow :=
                  ⟨db2.nextBid, rid, none, some lid, bidder_id, amount⟩
                .ok ({ db2 with
                  bids := db2.bids ++ [bid],
                  lots := db2.lots.map (bidLotUpd lid amount bidder_id),
                  nextBid := db2.nextBid + 1 }, bid)

/-- The existing-auto-bid lookup of BidService.set_auto_bid (if auction_id:
... elif lot_id: ...). -/
def autobid_lookup (uid : Nat) (aid lid : Option Nat) (db : DB) : Option AutoBidRow :=
  match aid with
  | some a => db.autobids.find? (fun ab => ab.auction_id == some a && ab.user_id == uid)
  | none =>
    match lid with
    | some l => db.autobids.find? (fun ab => ab.lot_id == some l && ab.user_id == uid)
    | none => none

/-- BidService.set_auto_bid: lock the user, check available funds against
max_amount, then either move the delta of an existing (user, target)
auto-bid through the Ledger (type autobid_reserve_update) or create the
auto-bid reserving the full amount (type autobid_reserve). -/
def set_auto_bid (uid : Nat) (aid lid : Option Nat) (max_amount : Int)
    (db : DB) : Except Err DB :=
  match findUser db uid with
  | none => .error .userNotFound
  | some user =>
    if user.balance - user.reserved < max_amount then .error .insufficientFunds
    else
      match autobid_lookup uid aid lid db with
      | some ab =>
        let diff := max_amount - ab.max_amount
        let upd : DB → DB := fun d =>
          { d with autobids := d.autobids.map (fun x =>
              if x == ab then { x with max_amount := max_amount } else x) }
        if diff = 0 then .ok (upd db)
        else
          match adjust_balance uid diff "autobid_reserve_update" none .reserved db with
          | .error e => .error e
          | .ok db1 => .ok (upd db1)
      | none =>
        match adjust_balance uid max_amount "autobid_reserve" none .reserved db with
        | .error e => .error e
        | .ok db1 => .ok { db1 with autobids := db1.autobids ++ [⟨uid, aid, lid, max_amount⟩] }

/-- AuctionService.create_auction: lock the stash row of (seller, item),
fail when the quantity is short, deduct (deleting the row when it reaches
zero), insert the ACTIVE auction with current_price = start_price and
end_time = now + duration hours.  The source reads utcnow() twice (end_time
then created_at) inside one handler; the embedding takes the single reading
now. -/
def create_auction (seller_id item_id : Nat) (start_price : Int)
    (duration : Nat) (quantity : Nat) (now : Nat) (db : DB) :
    Except Err (DB × AuctionRow) :=
  match db.stash.find? (fun s => s.user_id == seller_id && s.item_id == item_id) with
  | none => .error .insufficientStock
  | some entry =>
    if entry.quantity < quantity then .error .insufficientStock
    else
      let stash1 :=
        if quantity < entry.quantity then
          db.stash.map (fun s =>
            if s.user_id == seller_id && s.item_id == item_id then
              { s with quantity := s.quantity - quantity } else s)
        else
          db.stash.filter (fun s => !(s.user_id == seller_id && s.item_id == item_id))
      let auction : AuctionRow :=
        { id := db.nextBid, item_id := item_id, seller_id := seller_id,
          quantity := quantity, start_price := start_price,
          current_price := start_price, end_time := now + duration * 3600,
          status := .active, winner_id := none, created_at := now }
      .ok ({ db with stash := stash1,
                     auctions := db.auctions ++ [auction],
                     nextBid := db.nextBid + 1 }, auction)

/-- The pydantic validator AuctionCreate.max_24h: a duration outside
[1, 24] hours raises a ValueError, surfaced as a 422 validation error. -/
def max_24h (duration : Nat) : Except Err Nat :=
  if duration < 1 || 24 < duration then .error .invalidDuration
  else .ok duration

/-- POST /auctions: request validation through the AuctionCreate schema
followed by AuctionService.create_auction. -/
def create_auction_endpoint (seller_id item_id : Nat) (start_price : Int)
    (duration : Nat) (quantity : Nat) (now : Nat) (db : DB) :
    Except Err (DB × AuctionRow) :=
  match max_24h duration with
  | .error e => .error e
  | .ok d => create_auction seller_id item_id start_price d quantity now db

/-- Replace the auction row with the given id (the ORM write-back of the
mutated, primary-key-locked Auction object). -/
def setAuctionRow (db : DB) (aid : Nat) (a1 : AuctionRow) : DB :=
  { db with auctions := db.auctions.map (fun a => if a.id == aid then a1 else a) }

/-- AuctionService.close_auction: lock the auction row; 404 when missing;
idempotent success when the status is no longer ACTIVE; otherwise set
status FINISHED, read the highest bid, and either transfer money (release
the reserved amount of the winner, pay the seller) and the item, or return
the item to the seller when no bid exists.  The two user lookups are the
FOR UPDATE locks on winner and seller; when either is missing the source
raises 500 (if winner and seller: ... else: raise). -/
def close_auction (aid : Nat) (db : DB) : Except Err (DB × AuctionRow) :=
  match findAuction db aid with
  | none => .error .notFound
  | some auction =>
    if auction.status ≠ AuctionStatus.active then .ok (db, auction)
    else
      match highestAuctionBid db aid with
      | some hb =>
        let dbSt := setAuctionRow db aid { auction with
                      status := AuctionStatus.finished,
                      winner_id := some hb.bidder_id }
        match findUser dbSt hb.bidder_id with
        | none => .error .lockUsersFailed
        | some _ =>
          match findUser dbSt auction.seller_id with
          | none => .error .lockUsersFailed
          | some _ =>
            match adjust_balance hb.bidder_id (-hb.amount) "auction_release_reserved"
                (some aid) .reserved dbSt with
            | .error e => .error e
            | .ok db1 =>
              match adjust_balance auction.seller_id hb.amount "auction_payout"
                  (some aid) .balance db1 with
              | .error e => .error e
              | .ok db2 =>
                .ok (stashAdd db2 hb.bidder_id auction.item_id auction.quantity,
                     { auction with status := AuctionStatus.finished,
                                    winner_id := some hb.bidder_id })
      | none =>
        let dbSt := setAuctionRow db aid { auction with status := AuctionStatus.finished }
        .ok (stashAdd dbSt auction.seller_id auction.item_id auction.quantity,
             { auction with status := AuctionStatus.finished })

/-- The final state writes of close_auction_lot: the hero row gets the new
owner (when a winner exists) and is_on_auction cleared, the lot row is
replaced. -/
def lotCloseFinish (db : DB) (lid hero_id : Nat) (newOwner : Option Nat)
    (lot1 : LotRow) : DB :=
  { db with
    heroes := db.heroes.map (fun h =>
      if h.id == hero_id then
        { h with owner_id := newOwner.getD h.owner_id, is_on_auction := false }
      else h),
    lots := db.lots.map (fun l => if l.id == lid then lot1 else l) }

/-- AuctionService.close_auction_lot: lock the lot then the hero; 404 when
either is missing; idempotent success when the status is no longer ACTIVE;
with a highest bid transfer money and set hero.owner_id to the winner; in
all close paths clear hero.is_on_auction and set the lot FINISHED. -/
def close_auction_lot (lid : Nat) (db : DB) : Except Err (DB × LotRow) :=
  match findLot db lid with
  | none => .error .notFound
  | some lot =>
    if lot.status ≠ AuctionStatus.active then .ok (db, lot)
    else
      match findHero db lot.hero_id with
      | none => .error .notFound
      | some _ =>
        match highestLotBid db lid with
        | some hb =>
          match findUser db hb.bidder_id with
          | none => .error .lockUsersFailed
          | some _ =>
            match findUser db lot.seller_id with
            | none => .error .lockUsersFailed
            | some _ =>
              match adjust_balance hb.bidder_id (-hb.amount) "auction_release_reserved"
                  (some lid) .reserved db with
              | .error e => .error e
              | .ok db1 =>
                match adjust_balance lot.seller_id hb.amount "auction_payout"
                    (some lid) .balance db1 with
                | .error e => .error e
                | .ok db2 =>
                  .ok (lotCloseFinish db2 lid lot.hero_id (some hb.bidder_id)
                         { lot with status := AuctionStatus.finished,
                                    winner_id := some hb.bidder_id },
                       { lot with status := AuctionStatus.finished,
                                  winner_id := some hb.bidder_id })
        | none =>
          .ok (lotCloseFinish db lid lot.hero_id none
                 { lot with status := AuctionStatus.finished },
               { lot with status := AuctionStatus.finished })

/-- app.core.hero_config.MAX_HEROES. -/
def MAX_HEROES : Nat := 5

/-- The max_tries default of app.services.hero_generation.generate_hero. -/
def MAX_TRIES : Nat := 5

/-- Count of non-deleted heroes of an owner (the hero-limit query of
HeroService.generate_and_store). -/
def heroCount (db : DB) (owner_id : Nat) : Nat :=
  (db.heroes.filter (fun h => h.owner_id == owner_id && !h.is_deleted)).length

/-- app.services.hero_generation.generate_hero: validate the generation
level, run the success-probability retry loop (genFails failed rolls occur
before the first success; max_tries failures raise 429), insert the hero
row and its perk rows, and COMMIT THE SESSION (session.commit() at the end
of the function, inside the callers open transaction).  The returned state
is therefore a committed state. -/
def generate_hero_inner (owner_id generation : Nat) (genFails : Nat)
    (perkIds : List Nat) (db : DB) : Except Err (DB × Nat) :=
  if generation < 1 || 10 < generation then .error .invalidGeneration
  else if MAX_TRIES ≤ genFails then .error .generationFailed
  else
    let hid := db.nextHero
    let hero : HeroRow :=
      { id := hid, owner_id := owner_id, generation := generation,
        is_training := false, is_dead := false, is_on_auction := false,
        is_deleted := false, has_equipment := false }
    .ok ({ db with
      heroes := db.heroes ++ [hero],
      hero_perks := db.hero_perks ++ perkIds.map (fun p => ⟨hid, p⟩),
      nextHero := hid + 1 }, hid)

/-- HeroService.generate_and_store: inside session.begin() lock the user,
check the hero limit, call generate_hero (which commits the transaction in
the middle), debit 100 x currency through the Ledger (type
hero_generation), then add a second Hero row built from the returned data
and commit.  Result: the committed state, and the error if one was raised.
A failure of the debit happens after the inner commit, so the state it
leaves behind is the one generate_hero committed. -/
def generate_and_store (owner_id generation : Nat) (currency : Int)
    (genFails : Nat) (perkIds : List Nat) (db : DB) : DB × Option Err :=
  match findUser db owner_id with
  | none => (db, some .userNotFound)
  | some _ =>
    if MAX_HEROES ≤ heroCount db owner_id then (db, some .heroLimit)
    else
      match generate_hero_inner owner_id generation genFails perkIds db with
      | .error e => (db, some e)
      | .ok (dbA, _) =>
        match adjust_balance owner_id (-(100 * currency)) "hero_generation"
            none .balance dbA with
        | .error e => (dbA, some e)
        | .ok dbB =>
          let hero2 : HeroRow :=
            { id := dbB.nextHero, owner_id := owner_id, generation := generation,
              is_training := false, is_dead := false, is_on_auction := false,
              is_deleted := false, has_equipment := false }
          ({ dbB with heroes := dbB.heroes ++ [hero2], nextHero := dbB.nextHero + 1 },
           none)

/-- One row of the sweeper loop body: close_auction with the per-row
try/except of close_expired_auctions_task (an exception is logged, the
row transaction rolls back and the batch continues). -/
def runClose (db : DB) (aid : Nat) : DB :=
  match close_auction aid db with
  | .ok (db1, _) => db1
  | .error _ => db

/-- The ids selected by the sweeper: ACTIVE auctions with end_time <= now
(SELECT ... WITH FOR UPDATE SKIP LOCKED; in this sequential model no row is
concurrently locked). -/
def expiredAuctionIds (db : DB) (now : Nat) : List Nat :=
  ((db.auctions.filter (fun a =>
    a.status == AuctionStatus.active && a.end_time ≤ now)).map (fun a => a.id))

/-- One iteration of app.tasks.auctions.close_expired_auctions_task after
its 60 second sleep: select the expired ACTIVE item auctions and close each
through AuctionService.close_auction, errors logged per row.  The task body
contains no distributed-lock acquisition and no AuctionLot query. -/
def close_expired_auctions_iteration (now : Nat) (db : DB) : DB :=
  (expiredAuctionIds db now).foldl runClose db

/-- A row-level exclusive lock acquisition (one SELECT ... FOR UPDATE that
returned a row). -/
inductive LockEvent
  | auctionRow (id : Nat)
  | lotRow (id : Nat)
  | heroRow (id : Nat)
  | userRow (id : Nat)
  | stashRow (uid item : Nat)
deriving DecidableEq, Repr

/-- The user-row lock implicit in one adjust_balance call (its SELECT User
FOR UPDATE), emitted when the row exists. -/
def userLockOf (db : DB) (uid : Nat) : List LockEvent :=
  match findUser db uid with
  | some _ => [LockEvent.userRow uid]
  | none => []

/-- The stash-row lock of the lock-or-insert increment (emitted when the
row exists; an insert locks nothing). -/
def stashLockOf (db : DB) (uid item : Nat) : List LockEvent :=
  if db.stash.any (fun s => s.user_id == uid && s.item_id == item) then
    [LockEvent.stashRow uid item]
  else []

/-- The sequence of row locks AuctionService.close_auction acquires on a
given committed state, in execution order: the auction row, then on the
winning path the winner user row and the seller user row (in that fixed
textual order), then the user row re-locks inside the two adjust_balance
calls, then the stash row of the transfer; on the no-bid path the stash row
of the seller.  The trace stops where the source raises. -/
def close_auction_locks (aid : Nat) (db : DB) : List LockEvent :=
  match findAuction db aid with
  | none => []
  | some auction =>
    LockEvent.auctionRow aid ::
    (if auction.status ≠ AuctionStatus.active then []
     else
      match highestAuctionBid db aid with
      | some hb =>
        let dbSt := setAuctionRow db aid { auction with
                      status := AuctionStatus.finished,
                      winner_id := some hb.bidder_id }
        userLockOf dbSt hb.bidder_id ++ userLockOf dbSt auction.seller_id ++
        (match findUser dbSt hb.bidder_id, findUser dbSt auction.seller_id with
         | some _, some _ =>
           userLockOf dbSt hb.bidder_id ++
           (match adjust_balance hb.bidder_id (-hb.amount) "auction_release_reserved"
               (some aid) .reserved dbSt with
            | .error _ => []
            | .ok db1 =>
              userLockOf db1 auction.seller_id ++
              (match adjust_balance auction.seller_id hb.amount "auction_payout"
                  (some aid) .balance db1 with
               | .error _ => []
               | .ok db2 => stashLockOf db2 hb.bidder_id auction.item_id))
         | _, _ => [])
      | none =>
        let dbSt := setAuctionRow db aid { auction with status := AuctionStatus.finished }
        stashLockOf dbSt auction.seller_id auction.item_id)

/-- The user-row locks of AuctionService.close_auction_lot in execution
order (the lot and hero rows are locked first; on the winning path the
winner user row is locked before the seller user row, then the adjust
re-locks follow). -/
def close_auction_lot_locks (lid : Nat) (db : DB) : List LockEvent :=
  match findLot db lid with
  | none => []
  | some lot =>
    LockEvent.lotRow lid ::
    (if lot.status ≠ AuctionStatus.active then []
     else
      match findHero db lot.hero_id with
      | none => [LockEvent.heroRow lot.hero_id]
      | some _ =>
        LockEvent.heroRow lot.hero_id ::
        (match highestLotBid db lid with
         | some hb =>
           userLockOf db hb.bidder_id ++ userLockOf db lot.seller_id ++
           (match findUser db hb.bidder_id, findUser db lot.seller_id with
            | some _, some _ =>
              userLockOf db hb.bidder_id ++
              (match adjust_balance hb.bidder_id (-hb.amount) "auction_release_reserved"
                  (some lid) .reserved db with
               | .error _ => []
               | .ok db1 =>
                 userLockOf db1 lot.seller_id ++
                 (match adjust_balance lot.seller_id hb.amount "auction_payout"
                     (some lid) .balance db1 with
                  | .error _ => []
                  | .ok _ => []))
            | _, _ => [])
         | none => []))

/-- Keep only the user-row lock acquisitions of a lock trace. -/
def userLocks (tr : List LockEvent) : List Nat :=
  tr.filterMap (fun e =>
    match e with
    | LockEvent.userRow uid => some uid
    | _ => none)

/-- An operation of the core, with every environment input (clock reading,
random generation outcome) carried as data. -/
inductive Op
  | opPlaceBid (bidder aid : Nat) (amount : Int) (rid : Option String) (now : Nat)
  | opPlaceLotBid (bidder lid : Nat) (amount : Int) (rid : Option String) (now : Nat)
  | opSetAutoBid (uid : Nat) (aid lid : Option Nat) (max_amount : Int)
  | opCloseAuction (aid : Nat)
  | opCloseLot (lid : Nat)
  | opCreateAuction (seller item : Nat) (start_price : Int) (duration quantity now : Nat)
  | opGenerateHero (owner generation : Nat) (currency : Int) (genFails : Nat)
      (perkIds : List Nat)
  | opSweep (now : Nat)
deriving DecidableEq, Repr

/-- The committed state after one operation: a raising service rolls its
transaction back and leaves the committed state unchanged, except that
generate_and_store reports the state its inner commit left behind. -/
def applyOp (op : Op) (db : DB) : DB :=
  match op with
  | .opPlaceBid bidder aid amount rid now =>
    match place_bid bidder aid amount rid now db with
    | .ok (db1, _) => db1
    | .error _ => db
  | .opPlaceLotBid bidder lid amount rid now =>
    match place_lot_bid bidder lid amount rid now db with
    | .ok (db1, _) => db1
    | .error _ => db
  | .opSetAutoBid uid aid lid max_amount =>
    match set_auto_bid uid aid lid max_amount db with
    | .ok db1 => db1
    | .error _ => db
  | .opCloseAuction aid =>
    match close_auction aid db with
    | .ok (db1, _) => db1
    | .error _ => db
  | .opCloseLot lid =>
    match close_auction_lot lid db with
    | .ok (db1, _) => db1
    | .error _ => db
  | .opCreateAuction seller item start_price duration quantity now =>
    match create_auction_endpoint seller item start_price duration quantity now db with
    | .ok (db1, _) => db1
    | .error _ => db
  | .opGenerateHero owner generation currency genFails perkIds =>
    (generate_and_store owner generation currency genFails perkIds db).1
  | .opSweep now => close_expired_auctions_iteration now db

/-- The committed state after a sequence of operations. -/
def applyOps (ops : List Op) (db : DB) : DB :=
  ops.foldl (fun d op => applyOp op d) db

/-- Sum of the ledger amounts recorded for one user and one field. -/
def ledgerSumL (l : List LedgerEntry) (uid : Nat) (f : MoneyField) : Int :=
  ((l.filter (fun e => e.user_id == uid && e.fld == f)).map
    (fun e => e.amount)).sum

/-- Sum of the ledger amounts of one user and one field in a state. -/
def ledgerSum (db : DB) (uid : Nat) (f : MoneyField) : Int :=
  ledgerSumL db.ledger uid f

/-- Conservation of money: each money column equals the ledger sum of its
field for every user row. -/
def Reconciled (db : DB) : Prop :=
  ∀ u ∈ db.users, u.balance = ledgerSum db u.id MoneyField.balance ∧
    u.reserved = ledgerSum db u.id MoneyField.reserved

/-- Non-negativity of both money columns for every user row. -/
def NonNeg (db : DB) : Prop :=
  ∀ u ∈ db.users, 0 ≤ u.balance ∧ 0 ≤ u.reserved

/-- Reserved never exceeds balance (the available >= 0 clause of the
specification). -/
def BalGeRes (db : DB) : Prop :=
  ∀ u ∈ db.users, u.reserved ≤ u.balance

/-- Well-formed committed state for the money invariants: user ids are
unique (users.id is the primary key) and the columns reconcile with the
ledger and are non-negative. -/
def MoneyInv (db : DB) : Prop :=
  (db.users.map (fun u => u.id)).Nodup ∧ Reconciled db ∧ NonNeg db

instance (db : DB) : Decidable (Reconciled db) := by
  unfold Reconciled; infer_instance

instance (db : DB) : Decidable (NonNeg db) := by
  unfold NonNeg; infer_instance

instance (db : DB) : Decidable (BalGeRes db) := by
  unfold BalGeRes; infer_instance

instance (db : DB) : Decidable (MoneyInv db) := by
  unfold MoneyInv; infer_instance

/-- All user/ledger changes between two committed states factor through
successful adjust_balance calls, interleaved with steps that leave the
money columns and the ledger untouched.  Every operation of the core moves
the committed state along this relation (no balance or reserved write
happens outside the Ledger operation). -/
inductive MoneyStep : DB → DB → Prop
  | done (db : DB) : MoneyStep db db
  | adjust {db db1 db2 : DB} {uid : Nat} {amount : Int} {kind : String}
      {ref : Option Nat} {fld : MoneyField} :
      adjust_balance uid amount kind ref fld db = .ok db1 →
      MoneyStep db1 db2 → MoneyStep db db2
  | neutral {db db1 db2 : DB} :
      db1.users = db.users → db1.ledger = db.ledger →
      MoneyStep db1 db2 → MoneyStep db db2

/-- Updating user rows through an id-preserving function commutes with the
lookup by id. -/
theorem findUser_map (l : List UserRow) (g : UserRow → UserRow)
    (hg : ∀ v, (g v).id = v.id) (uid : Nat) :
    (l.map g).find? (fun u => u.id == uid) =
      (l.find? (fun u => u.id == uid)).map g := by
  rw [List.find?_map]
  have hp : ((fun u : UserRow => u.id == uid) ∘ g) = fun u => u.id == uid := by
    funext v
    simp [Function.comp, hg]
  rw [hp]

/-- The id returned by the user lookup matches the key. -/
theorem findUser_id {db : DB} {uid : Nat} {u : UserRow}
    (h : findUser db uid = some u) : u.id = uid := by
  unfold findUser at h
  simpa using List.find?_some h

/-- The row returned by the user lookup is in the table. -/
theorem findUser_mem {db : DB} {uid : Nat} {u : UserRow}
    (h : findUser db uid = some u) : u ∈ db.users := by
  unfold findUser at h
  exact List.mem_of_find?_eq_some h

/-- The update applied by a balance-field adjust. -/
def setBal (uid : Nat) (x : Int) : UserRow → UserRow := fun v =>
  if v.id == uid then { v with balance := x } else v

/-- The update applied by a reserved-field adjust. -/
def setRes (uid : Nat) (x : Int) : UserRow → UserRow := fun v =>
  if v.id == uid then { v with reserved := x } else v

theorem setBal_id (uid : Nat) (x : Int) (v : UserRow) : (setBal uid x v).id = v.id := by
  unfold setBal; split <;> rfl

theorem setRes_id (uid : Nat) (x : Int) (v : UserRow) : (setRes uid x v).id = v.id := by
  unfold setRes; split <;> rfl

/-- Characterization of a successful adjust_balance: the user row existed,
exactly one ledger row is appended carrying the delta and the field, the
named column of that user is set to old value + delta, and nothing else in
the state changes. -/
theorem adjust_balance_ok_char {uid : Nat} {amount : Int} {kind : String}
    {ref : Option Nat} {fld : MoneyField} {db db' : DB}
    (h : adjust_balance uid amount kind ref fld db = .ok db') :
    ∃ u, findUser db uid = some u ∧
      db'.ledger = db.ledger ++ [⟨uid, amount, kind, ref, fld⟩] ∧
      db'.auctions = db.auctions ∧ db'.lots = db.lots ∧ db'.bids = db.bids ∧
      db'.autobids = db.autobids ∧ db'.heroes = db.heroes ∧
      db'.hero_perks = db.hero_perks ∧ db'.stash = db.stash ∧
      db'.redis = db.redis ∧ db'.nextBid = db.nextBid ∧ db'.nextHero = db.nextHero ∧
      ((fld = MoneyField.balance ∧ 0 ≤ u.balance + amount ∧
          db'.users = db.users.map (setBal uid (u.balance + amount))) ∨
       (fld = MoneyField.reserved ∧ 0 ≤ u.reserved + amount ∧
          db'.users = db.users.map (setRes uid (u.reserved + amount)))) := by
  unfold adjust_balance at h
  cases hfu : findUser db uid with
  | none => rw [hfu] at h; exact absurd h (by simp)
  | some u =>
    rw [hfu] at h
    refine ⟨u, rfl, ?_⟩
    cases fld with
    | balance =>
      by_cases hneg : u.balance + amount < 0
      · simp [hneg] at h
      · simp only [hneg, if_false, Except.ok.injEq] at h
        subst h
        refine ⟨rfl, rfl, rfl, rfl, rfl, rfl, rfl, rfl, rfl, rfl, rfl, ?_⟩
        exact Or.inl ⟨rfl, by omega, rfl⟩
    | reserved =>
      by_cases hneg : u.reserved + amount < 0
      · simp [hneg] at h
      · simp only [hneg, if_false, Except.ok.injEq] at h
        subst h
        refine ⟨rfl, rfl, rfl, rfl, rfl, rfl, rfl, rfl, rfl, rfl, rfl, ?_⟩
        exact Or.inr ⟨rfl, by omega, rfl⟩

/-- A successful adjust leaves the row of every other user unchanged. -/
theorem adjust_balance_ok_findUser_other {uid : Nat} {amount : Int} {kind : String}
    {ref : Option Nat} {fld : MoneyField} {db db' : DB}
    (h : adjust_balance uid amount kind ref fld db = .ok db')
    {v : Nat} (hv : v ≠ uid) : findUser db' v = findUser db v := by
  obtain ⟨u, _, _, _, _, _, _, _, _, _, _, _, _, hcase⟩ := adjust_balance_ok_char h
  have key : ∀ (g : UserRow → UserRow), (∀ w, (g w).id = w.id) →
      (∀ w, w.id = v → g w = w) → db'.users = db.users.map g →
      findUser db' v = findUser db v := by
    intro g hid hfix husers
    unfold findUser
    rw [husers, findUser_map _ _ hid]
    cases hf : db.users.find? (fun u => u.id == v) with
    | none => rfl
    | some w =>
      have hw : w.id = v := by
        have := List.find?_some hf
        simpa using this
      simp [hfix w hw]
  rcases hcase with ⟨-, -, husers⟩ | ⟨-, -, husers⟩
  · refine key _ (setBal_id uid _) (fun w hw => ?_) husers
    have hcond : (w.id == uid) = false := by simp [hw, hv]
    unfold setBal
    simp [hcond]
  · refine key _ (setRes_id uid _) (fun w hw => ?_) husers
    have hcond : (w.id == uid) = false := by simp [hw, hv]
    unfold setRes
    simp [hcond]

/-- A successful balance-field adjust sets the balance of the adjusted user
to old + delta and keeps the reserved column. -/
theorem adjust_balance_ok_findUser_bal {uid : Nat} {amount : Int} {kind : String}
    {ref : Option Nat} {db db' : DB} {u : UserRow}
    (h : adjust_balance uid amount kind ref .balance db = .ok db')
    (hu : findUser db uid = some u) :
    findUser db' uid = some { u with balance := u.balance + amount } := by
  obtain ⟨u0, hu0, _, _, _, _, _, _, _, _, _, _, _, hcase⟩ := adjust_balance_ok_char h
  have heq : u0 = u := by rw [hu] at hu0; injection hu0 with h2; exact h2.symm
  subst heq
  have hid : u0.id = uid := findUser_id hu
  rcases hcase with ⟨-, -, husers⟩ | ⟨hbad, -, -⟩
  · unfold findUser
    rw [husers, findUser_map _ _ (setBal_id uid _)]
    unfold findUser at hu
    rw [hu]
    simp [setBal, hid]
  · exact absurd hbad (by simp)

/-- A successful reserved-field adjust sets the reserved column of the
adjusted user to old + delta and keeps the balance. -/
theorem adjust_balance_ok_findUser_res {uid : Nat} {amount : Int} {kind : String}
    {ref : Option Nat} {db db' : DB} {u : UserRow}
    (h : adjust_balance uid amount kind ref .reserved db = .ok db')
    (hu : findUser db uid = some u) :
    findUser db' uid = some { u with reserved := u.reserved + amount } := by
  obtain ⟨u0, hu0, _, _, _, _, _, _, _, _, _, _, _, hcase⟩ := adjust_balance_ok_char h
  have heq : u0 = u := by rw [hu] at hu0; injection hu0 with h2; exact h2.symm
  subst heq
  have hid : u0.id = uid := findUser_id hu
  rcases hcase with ⟨hbad, -, -⟩ | ⟨-, -, husers⟩
  · exact absurd hbad (by simp)
  · unfold findUser
    rw [husers, findUser_map _ _ (setRes_id uid _)]
    unfold findUser at hu
    rw [hu]
    simp [setRes, hid]

theorem ledgerSumL_append (l1 l2 : List LedgerEntry) (uid : Nat) (f : MoneyField) :
    ledgerSumL (l1 ++ l2) uid f = ledgerSumL l1 uid f + ledgerSumL l2 uid f := by
  unfold ledgerSumL
  rw [List.filter_append, List.map_append, List.sum_append]

theorem ledgerSumL_single (e : LedgerEntry) (uid : Nat) (f : MoneyField) :
    ledgerSumL [e] uid f =
      if e.user_id = uid ∧ e.fld = f then e.amount else 0 := by
  unfold ledgerSumL
  by_cases hc : e.user_id = uid ∧ e.fld = f
  · have : (e.user_id == uid && e.fld == f) = true := by
      simp [hc.1, hc.2]
    simp [List.filter, this, hc]
  · have : (e.user_id == uid && e.fld == f) = false := by
      rcases not_and_or.mp hc with h1 | h1 <;> simp [h1]
    simp [List.filter, this, hc]

/-- MoneyStep composes. -/
theorem MoneyStep.trans {a b c : DB} (h1 : MoneyStep a b) (h2 : MoneyStep b c) :
    MoneyStep a c := by
  induction h1 with
  | done => exact h2
  | adjust ha _ ih => exact MoneyStep.adjust ha (ih h2)
  | neutral hu hl _ ih => exact MoneyStep.neutral hu hl (ih h2)

/-- A single money-neutral transition is a MoneyStep. -/
theorem MoneyStep.ofNeutral {a b : DB} (hu : b.users = a.users)
    (hl : b.ledger = a.ledger) : MoneyStep a b :=
  MoneyStep.neutral hu hl (MoneyStep.done b)

/-- A single successful adjust is a MoneyStep. -/
theorem MoneyStep.ofAdjust {a b : DB} {uid : Nat} {amount : Int} {kind : String}
    {ref : Option Nat} {fld : MoneyField}
    (h : adjust_balance uid amount kind ref fld a = .ok b) : MoneyStep a b :=
  MoneyStep.adjust h (MoneyStep.done b)

/-- States with equal user tables and ledgers share the money invariant. -/
theorem moneyInv_congr {db db' : DB} (hu : db'.users = db.users)
    (hl : db'.ledger = db.ledger) (h : MoneyInv db) : MoneyInv db' := by
  obtain ⟨hnd, hrec, hnn⟩ := h
  refine ⟨by rw [hu]; exact hnd, ?_, ?_⟩
  · intro u hmem
    rw [hu] at hmem
    have := hrec u hmem
    unfold ledgerSum
    rw [hl]
    exact this
  · intro u hmem
    rw [hu] at hmem
    exact hnn u hmem

/-- A successful adjust_balance preserves the money invariant: the adjusted
column moves by the delta and the appended ledger row records exactly that
delta under the same field tag. -/
theorem adjust_preserves_moneyInv {uid : Nat} {amount : Int} {kind : String}
    {ref : Option Nat} {fld : MoneyField} {db db' : DB}
    (h : adjust_balance uid amount kind ref fld db = .ok db') :
    MoneyInv db → MoneyInv db' := by
  rintro ⟨hnd, hrec, hnn⟩
  obtain ⟨u, hu, hledger, _, _, _, _, _, _, _, _, _, _, hcase⟩ :=
    adjust_balance_ok_char h
  have humem : u ∈ db.users := findUser_mem hu
  have huid : u.id = uid := findUser_id hu
  have key : ∀ (g : UserRow → UserRow), (∀ w, (g w).id = w.id) →
      db'.users = db.users.map g → (db'.users.map (fun w => w.id)).Nodup := by
    intro g hg husers
    rw [husers, List.map_map]
    have : ((fun w : UserRow => w.id) ∘ g) = fun w : UserRow => w.id := by
      funext w; simp [Function.comp, hg]
    rw [this]
    exact hnd
  have hsum : ∀ (e : LedgerEntry), db'.ledger = db.ledger ++ [e] →
      ∀ x f, ledgerSum db' x f = ledgerSum db x f +
        (if e.user_id = x ∧ e.fld = f then e.amount else 0) := by
    intro e he x f
    unfold ledgerSum
    rw [he, ledgerSumL_append, ledgerSumL_single]
  rcases hcase with ⟨hfld, hpos, husers⟩ | ⟨hfld, hpos, husers⟩ <;> subst hfld
  · -- balance adjustment
    refine ⟨key _ (setBal_id uid _) husers, ?_, ?_⟩
    · intro w hw
      rw [husers] at hw
      obtain ⟨v, hv, hgv⟩ := List.mem_map.mp hw
      by_cases hvu : v.id = uid
      · have hveq : v = u :=
          List.inj_on_of_nodup_map hnd hv humem (by rw [hvu, huid])
        subst hveq
        have hw2 : w = { v with balance := v.balance + amount } := by
          rw [← hgv]; unfold setBal; simp [hvu]
        subst hw2
        obtain ⟨hb, hr⟩ := hrec v hv
        constructor
        · rw [hsum _ hledger]
          simp [hvu, hb]
        · rw [hsum _ hledger]
          simp [hvu, hr]
      · have hw2 : w = v := by
          rw [← hgv]; unfold setBal; simp [hvu]
        subst hw2
        obtain ⟨hb, hr⟩ := hrec w hv
        have hne : uid ≠ w.id := fun hx => hvu hx.symm
        constructor
        · rw [hsum _ hledger]
          simp [hne, hb]
        · rw [hsum _ hledger]
          simp [hne, hr]
    · intro w hw
      rw [husers] at hw
      obtain ⟨v, hv, hgv⟩ := List.mem_map.mp hw
      obtain ⟨hb, hr⟩ := hnn v hv
      by_cases hvu : v.id = uid
      · have hveq : v = u :=
          List.inj_on_of_nodup_map hnd hv humem (by rw [hvu, huid])
        subst hveq
        have hw2 : w = { v with balance := v.balance + amount } := by
          rw [← hgv]; unfold setBal; simp [hvu]
        subst hw2
        exact ⟨hpos, hr⟩
      · have hw2 : w = v := by
          rw [← hgv]; unfold setBal; simp [hvu]
        subst hw2
        exact ⟨hb, hr⟩
  · -- reserved adjustment
    refine ⟨key _ (setRes_id uid _) husers, ?_, ?_⟩
    · intro w hw
      rw [husers] at hw
      obtain ⟨v, hv, hgv⟩ := List.mem_map.mp hw
      by_cases hvu : v.id = uid
      · have hveq : v = u :=
          List.inj_on_of_nodup_map hnd hv humem (by rw [hvu, huid])
        subst hveq
        have hw2 : w = { v with reserved := v.reserved + amount } := by
          rw [← hgv]; unfold setRes; simp [hvu]
        subst hw2
        obtain ⟨hb, hr⟩ := hrec v hv
        constructor
        · rw [hsum _ hledger]
          simp [hvu, hb]
        · rw [hsum _ hledger]
          simp [hvu, hr]
      · have hw2 : w = v := by
          rw [← hgv]; unfold setRes; simp [hvu]
        subst hw2
        obtain ⟨hb, hr⟩ := hrec w hv
        have hne : uid ≠ w.id := fun hx => hvu hx.symm
        constructor
        · rw [hsum _ hledger]
          simp [hne, hb]
        · rw [hsum _ hledger]
          simp [hne, hr]
    · intro w hw
      rw [husers] at hw
      obtain ⟨v, hv, hgv⟩ := List.mem_map.mp hw
      obtain ⟨hb, hr⟩ := hnn v hv
      by_cases hvu : v.id = uid
      · have hveq : v = u :=
          List.inj_on_of_nodup_map hnd hv humem (by rw [hvu, huid])
        subst hveq
        have hw2 : w = { v with reserved := v.reserved + amount } := by
          rw [← hgv]; unfold setRes; simp [hvu]
        subst hw2
        exact ⟨hb, hpos⟩
      · have hw2 : w = v := by
          rw [← hgv]; unfold setRes; simp [hvu]
        subst hw2
        exact ⟨hb, hr⟩

/-- Every MoneyStep preserves the money invariant. -/
theorem moneyStep_preserves_moneyInv {db db' : DB} (h : MoneyStep db db') :
    MoneyInv db → MoneyInv db' := by
  induction h with
  | done db => exact id
  | adjust ha _ ih => exact fun hi => ih (adjust_preserves_moneyInv ha hi)
  | neutral hu hl _ ih => exact fun hi => ih (moneyInv_congr hu hl hi)


theorem bid_release_prev_moneyStep {p : Option BidRow} {b r : Nat} {db db1 : DB}
    (h : bid_release_prev p b r db = .ok db1) : MoneyStep db db1 := by
  cases p with
  | none =>
    simp only [bid_release_prev] at h
    injection h with h
    subst h
    exact MoneyStep.done _
  | some pb =>
    simp only [bid_release_prev] at h
    by_cases hne : pb.bidder_id ≠ b
    · rw [if_pos hne] at h
      cases hfu : findUser db pb.bidder_id with
      | some u =>
        simp only [hfu] at h
        exact MoneyStep.ofAdjust h
      | none =>
        simp only [hfu] at h
        injection h with h
        subst h
        exact MoneyStep.done _
    · rw [if_neg hne] at h
      injection h with h
      subst h
      exact MoneyStep.done _

theorem place_bid_moneyStep {bidder aid : Nat} {amount : Int} {rid : Option String}
    {now : Nat} {db db' : DB} {bid : BidRow}
    (h : place_bid bidder aid amount rid now db = .ok (db', bid)) :
    MoneyStep db db' := by
  unfold place_bid at h
  cases hidem : idempotencyHit rid db with
  | some ex =>
    simp only [hidem] at h
    injection h with h
    rw [Prod.mk.injEq] at h
    obtain ⟨h1, -⟩ := h
    subst h1
    exact MoneyStep.done _
  | none =>
    simp only [hidem] at h
    cases hfa : findActiveAuction db aid with
    | none => simp only [hfa] at h; cases h
    | some auction =>
      simp only [hfa] at h
      by_cases h1 : auction.end_time < now
      · rw [if_pos h1] at h; simp at h
      rw [if_neg h1] at h
      by_cases h2 : (auction.seller_id == bidder) = true
      · rw [if_pos h2] at h; simp at h
      rw [if_neg h2] at h
      by_cases h3 : amount ≤ auction.current_price
      · rw [if_pos h3] at h; simp at h
      rw [if_neg h3] at h
      cases hfu : findUser db bidder with
      | none => simp only [hfu] at h; cases h
      | some user =>
        simp only [hfu] at h
        by_cases h4 : user.balance - user.reserved < amount
        · rw [if_pos h4] at h; simp at h
        rw [if_neg h4] at h
        cases hrel : bid_release_prev (highestAuctionBid db aid) bidder aid db with
        | error e => simp only [hrel] at h; cases h
        | ok db1 =>
          simp only [hrel] at h
          cases hadj : adjust_balance bidder amount "bid_reserve" (some aid)
              MoneyField.reserved db1 with
          | error e => simp only [hadj] at h; cases h
          | ok db2 =>
            simp only [hadj] at h
            injection h with h
            rw [Prod.mk.injEq] at h
            obtain ⟨h5, -⟩ := h
            subst h5
            exact MoneyStep.trans (bid_release_prev_moneyStep hrel)
              (MoneyStep.adjust hadj (MoneyStep.ofNeutral rfl rfl))

theorem place_lot_bid_moneyStep {bidder lid : Nat} {amount : Int} {rid : Option String}
    {now : Nat} {db db' : DB} {bid : BidRow}
    (h : place_lot_bid bidder lid amount rid now db = .ok (db', bid)) :
    MoneyStep db db' := by
  unfold place_lot_bid at h
  cases hidem : idempotencyHit rid db with
  | some ex =>
    simp only [hidem] at h
    injection h with h
    rw [Prod.mk.injEq] at h
    obtain ⟨h1, -⟩ := h
    subst h1
    exact MoneyStep.done _
  | none =>
    simp only [hidem] at h
    cases hfa : findActiveLot db lid with
    | none => simp only [hfa] at h; cases h
    | some lot =>
      simp only [hfa] at h
      by_cases h1 : lot.end_time < now
      · rw [if_pos h1] at h; simp at h
      rw [if_neg h1] at h
      by_cases h2 : (lot.seller_id == bidder) = true
      · rw [if_pos h2] at h; simp at h
      rw [if_neg h2] at h
      by_cases h3 : amount ≤ lot.current_price
      · rw [if_pos h3] at h; simp at h
      rw [if_neg h3] at h
      cases hfu : findUser db bidder with
      | none => simp only [hfu] at h; cases h
      | some user =>
        simp only [hfu] at h
        by_cases h4 : user.balance - user.reserved < amount
        · rw [if_pos h4] at h; simp at h
        rw [if_neg h4] at h
        cases hrel : bid_release_prev (highestLotBid db lid) bidder lid db with
        | error e => simp only [hrel] at h; cases h
        | ok db1 =>
          simp only [hrel] at h
          cases hadj : adjust_balance bidder amount "bid_reserve" (some lid)
              MoneyField.reserved db1 with
          | error e => simp only [hadj] at h; cases h
          | ok db2 =>
            simp only [hadj] at h
            injection h with h
            rw [Prod.mk.injEq] at h
            obtain ⟨h5, -⟩ := h
            subst h5
            exact MoneyStep.trans (bid_release_prev_moneyStep hrel)
              (MoneyStep.adjust hadj (MoneyStep.ofNeutral rfl rfl))

theorem set_auto_bid_moneyStep {uid : Nat} {aid lid : Option Nat} {max_amount : Int}
    {db db' : DB} (h : set_auto_bid uid aid lid max_amount db = .ok db') :
    MoneyStep db db' := by
  unfold set_auto_bid at h
  cases hfu : findUser db uid with
  | none => simp only [hfu] at h; cases h
  | some user =>
    simp only [hfu] at h
    by_cases h1 : user.balance - user.reserved < max_amount
    · rw [if_pos h1] at h; simp at h
    rw [if_neg h1] at h
    cases hhit : autobid_lookup uid aid lid db with
    | some ab =>
      simp only [hhit] at h
      by_cases h2 : max_amount - ab.max_amount = 0
      · rw [if_pos h2] at h
        injection h with h
        subst h
        exact MoneyStep.ofNeutral rfl rfl
      · rw [if_neg h2] at h
        cases hadj : adjust_balance uid (max_amount - ab.max_amount)
            "autobid_reserve_update" none MoneyField.reserved db with
        | error e => simp only [hadj] at h; cases h
        | ok db1 =>
          simp only [hadj] at h
          injection h with h
          subst h
          exact MoneyStep.adjust hadj (MoneyStep.ofNeutral rfl rfl)
    | none =>
      simp only [hhit] at h
      cases hadj : adjust_balance uid max_amount "autobid_reserve" none
          MoneyField.reserved db with
      | error e => simp only [hadj] at h; cases h
      | ok db1 =>
        simp only [hadj] at h
        injection h with h
        subst h
        exact MoneyStep.adjust hadj (MoneyStep.ofNeutral rfl rfl)

theorem stashAdd_users (db : DB) (u i q : Nat) : (stashAdd db u i q).users = db.users := by
  unfold stashAdd
  split <;> rfl

theorem stashAdd_ledger (db : DB) (u i q : Nat) : (stashAdd db u i q).ledger = db.ledger := by
  unfold stashAdd
  split <;> rfl

theorem close_auction_moneyStep {aid : Nat} {db db' : DB} {a' : AuctionRow}
    (h : close_auction aid db = .ok (db', a')) : MoneyStep db db' := by
  unfold close_auction at h
  cases hfa : findAuction db aid with
  | none => simp only [hfa] at h; cases h
  | some auction =>
    simp only [hfa] at h
    by_cases hst : auction.status ≠ AuctionStatus.active
    · rw [if_pos hst] at h
      injection h with h
      rw [Prod.mk.injEq] at h
      obtain ⟨h1, -⟩ := h
      subst h1
      exact MoneyStep.done _
    · rw [if_neg hst] at h
      cases hhb : highestAuctionBid db aid with
      | some hb =>
        simp only [hhb] at h
        cases hw : findUser (setAuctionRow db aid { auction with
            status := AuctionStatus.finished,
            winner_id := some hb.bidder_id }) hb.bidder_id with
        | none => simp only [hw] at h; cases h
        | some w =>
          simp only [hw] at h
          cases hs : findUser (setAuctionRow db aid { auction with
              status := AuctionStatus.finished,
              winner_id := some hb.bidder_id }) auction.seller_id with
          | none => simp only [hs] at h; cases h
          | some sel =>
            simp only [hs] at h
            cases hadj1 : adjust_balance hb.bidder_id (-hb.amount)
                "auction_release_reserved" (some aid) MoneyField.reserved
                (setAuctionRow db aid { auction with
                  status := AuctionStatus.finished,
                  winner_id := some hb.bidder_id }) with
            | error e => simp only [hadj1] at h; cases h
            | ok db1 =>
              simp only [hadj1] at h
              cases hadj2 : adjust_balance auction.seller_id hb.amount
                  "auction_payout" (some aid) MoneyField.balance db1 with
              | error e => simp only [hadj2] at h; cases h
              | ok db2 =>
                simp only [hadj2] at h
                injection h with h
                rw [Prod.mk.injEq] at h
                obtain ⟨h1, -⟩ := h
                subst h1
                refine MoneyStep.trans (MoneyStep.ofNeutral ?_ ?_)
                  (MoneyStep.adjust hadj1 (MoneyStep.adjust hadj2
                    (MoneyStep.ofNeutral (stashAdd_users _ _ _ _) (stashAdd_ledger _ _ _ _))))
                · rfl
                · rfl
      | none =>
        simp only [hhb] at h
        injection h with h
        rw [Prod.mk.injEq] at h
        obtain ⟨h1, -⟩ := h
        subst h1
        refine MoneyStep.ofNeutral ?_ ?_
        · rw [stashAdd_users]; rfl
        · rw [stashAdd_ledger]; rfl

theorem close_auction_lot_moneyStep {lid : Nat} {db db' : DB} {l' : LotRow}
    (h : close_auction_lot lid db = .ok (db', l')) : MoneyStep db db' := by
  unfold close_auction_lot at h
  cases hfl : findLot db lid with
  | none => simp only [hfl] at h; cases h
  | some lot =>
    simp only [hfl] at h
    by_cases hst : lot.status ≠ AuctionStatus.active
    · rw [if_pos hst] at h
      injection h with h
      rw [Prod.mk.injEq] at h
      obtain ⟨h1, -⟩ := h
      subst h1
      exact MoneyStep.done _
    · rw [if_neg hst] at h
      cases hfh : findHero db lot.hero_id with
      | none => simp only [hfh] at h; cases h
      | some hero =>
        simp only [hfh] at h
        cases hhb : highestLotBid db lid with
        | some hb =>
          simp only [hhb] at h
          cases hw : findUser db hb.bidder_id with
          | none => simp only [hw] at h; cases h
          | some w =>
            simp only [hw] at h
            cases hs : findUser db lot.seller_id with
            | none => simp only [hs] at h; cases h
            | some sel =>
              simp only [hs] at h
              cases hadj1 : adjust_balance hb.bidder_id (-hb.amount)
                  "auction_release_reserved" (some lid) MoneyField.reserved db with
              | error e => simp only [hadj1] at h; cases h
              | ok db1 =>
                simp only [hadj1] at h
                cases hadj2 : adjust_balance lot.seller_id hb.amount
                    "auction_payout" (some lid) MoneyField.balance db1 with
                | error e => simp only [hadj2] at h; cases h
                | ok db2 =>
                  simp only [hadj2] at h
                  injection h with h
                  rw [Prod.mk.injEq] at h
                  obtain ⟨h1, -⟩ := h
                  subst h1
                  exact MoneyStep.adjust hadj1 (MoneyStep.adjust hadj2
                    (MoneyStep.ofNeutral rfl rfl))
        | none =>
          simp only [hhb] at h
          injection h with h
          rw [Prod.mk.injEq] at h
          obtain ⟨h1, -⟩ := h
          subst h1
          exact MoneyStep.ofNeutral rfl rfl

theorem create_auction_moneyStep {seller item : Nat} {price : Int}
    {dur qty now : Nat} {db db' : DB} {a' : AuctionRow}
    (h : create_auction seller item price dur qty now db = .ok (db', a')) :
    MoneyStep db db' := by
  unfold create_auction at h
  cases hst : db.stash.find? (fun s => s.user_id == seller && s.item_id == item) with
  | none => simp only [hst] at h; cases h
  | some entry =>
    simp only [hst] at h
    by_cases h1 : entry.quantity < qty
    · rw [if_pos h1] at h; cases h
    · rw [if_neg h1] at h
      injection h with h
      rw [Prod.mk.injEq] at h
      obtain ⟨h2, -⟩ := h
      subst h2
      exact MoneyStep.ofNeutral rfl rfl

theorem create_auction_endpoint_moneyStep {seller item : Nat} {price : Int}
    {dur qty now : Nat} {db db' : DB} {a' : AuctionRow}
    (h : create_auction_endpoint seller item price dur qty now db = .ok (db', a')) :
    MoneyStep db db' := by
  unfold create_auction_endpoint at h
  cases hv : max_24h dur with
  | error e => simp only [hv] at h; cases h
  | ok d =>
    simp only [hv] at h
    exact create_auction_moneyStep h

theorem generate_and_store_moneyStep (owner generation : Nat) (currency : Int)
    (genFails : Nat) (perkIds : List Nat) (db : DB) :
    MoneyStep db (generate_and_store owner generation currency genFails perkIds db).1 := by
  unfold generate_and_store
  cases hfu : findUser db owner with
  | none => exact MoneyStep.done _
  | some u =>
    simp only
    by_cases h1 : MAX_HEROES ≤ heroCount db owner
    · rw [if_pos h1]
      exact MoneyStep.done _
    · rw [if_neg h1]
      cases hgen : generate_hero_inner owner generation genFails perkIds db with
      | error e => exact MoneyStep.done _
      | ok pr =>
        obtain ⟨dbA, hid⟩ := pr
        simp only
        have hA : MoneyStep db dbA := by
          unfold generate_hero_inner at hgen
          by_cases h2 : generation < 1 || 10 < generation
          · rw [if_pos h2] at hgen; cases hgen
          · rw [if_neg h2] at hgen
            by_cases h3 : MAX_TRIES ≤ genFails
            · rw [if_pos h3] at hgen; cases hgen
            · rw [if_neg h3] at hgen
              injection hgen with hgen
              rw [Prod.mk.injEq] at hgen
              obtain ⟨h4, -⟩ := hgen
              subst h4
              exact MoneyStep.ofNeutral rfl rfl
        cases hadj : adjust_balance owner (-(100 * currency)) "hero_generation"
            none MoneyField.balance dbA with
        | error e => exact hA
        | ok dbB =>
          exact MoneyStep.trans hA
            (MoneyStep.adjust hadj (MoneyStep.ofNeutral rfl rfl))

theorem runClose_moneyStep (db : DB) (aid : Nat) : MoneyStep db (runClose db aid) := by
  unfold runClose
  cases h : close_auction aid db with
  | ok pr =>
    obtain ⟨db1, a1⟩ := pr
    exact close_auction_moneyStep h
  | error e => exact MoneyStep.done _

theorem foldl_runClose_moneyStep (ids : List Nat) (db : DB) :
    MoneyStep db (ids.foldl runClose db) := by
  induction ids generalizing db with
  | nil => exact MoneyStep.done _
  | cons a rest ih =>
    exact MoneyStep.trans (runClose_moneyStep db a) (ih (runClose db a))

/-- Every operation of the core moves the committed state along MoneyStep:
all balance/reserved writes factor through adjust_balance. -/
theorem applyOp_moneyStep (op : Op) (db : DB) : MoneyStep db (applyOp op db) := by
  cases op with
  | opPlaceBid bidder aid amount rid now =>
    simp only [applyOp]
    cases h : place_bid bidder aid amount rid now db with
    | ok pr =>
      obtain ⟨db1, b1⟩ := pr
      exact place_bid_moneyStep h
    | error e => exact MoneyStep.done _
  | opPlaceLotBid bidder lid amount rid now =>
    simp only [applyOp]
    cases h : place_lot_bid bidder lid amount rid now db with
    | ok pr =>
      obtain ⟨db1, b1⟩ := pr
      exact place_lot_bid_moneyStep h
    | error e => exact MoneyStep.done _
  | opSetAutoBid uid aid lid max_amount =>
    simp only [applyOp]
    cases h : set_auto_bid uid aid lid max_amount db with
    | ok db1 => exact set_auto_bid_moneyStep h
    | error e => exact MoneyStep.done _
  | opCloseAuction aid =>
    simp only [applyOp]
    cases h : close_auction aid db with
    | ok pr =>
      obtain ⟨db1, a1⟩ := pr
      exact close_auction_moneyStep h
    | error e => exact MoneyStep.done _
  | opCloseLot lid =>
    simp only [applyOp]
    cases h : close_auction_lot lid db with
    | ok pr =>
      obtain ⟨db1, l1⟩ := pr
      exact close_auction_lot_moneyStep h
    | error e => exact MoneyStep.done _
  | opCreateAuction seller item price dur qty now =>
    simp only [applyOp]
    cases h : create_auction_endpoint seller item price dur qty now db with
    | ok pr =>
      obtain ⟨db1, a1⟩ := pr
      exact create_auction_endpoint_moneyStep h
    | error e => exact MoneyStep.done _
  | opGenerateHero owner generation currency genFails perkIds =>
    simp only [applyOp]
    exact generate_and_store_moneyStep owner generation currency genFails perkIds db
  | opSweep now =>
    simp only [applyOp, close_expired_auctions_iteration]
    exact foldl_runClose_moneyStep _ db

/-- Applying any sequence of core operations preserves the money
invariant. -/
theorem applyOps_preserves_moneyInv (ops : List Op) (db : DB) (h : MoneyInv db) :
    MoneyInv (applyOps ops db) := by
  induction ops generalizing db with
  | nil => exact h
  | cons op rest ih =>
    exact ih (applyOp op db)
      (moneyStep_preserves_moneyInv (applyOp_moneyStep op db) h)

/-- Concrete state for the hero-generation atomicity check: one user with
balance 50.00, no heroes (balance backed by a 50.00 deposit ledger row). -/
def dbC2 : DB :=
  { users := [⟨1, 5000, 0⟩],
    ledger := [⟨1, 5000, "deposit", none, MoneyField.balance⟩],
    auctions := [], lots := [], bids := [], autobids := [], heroes := [],
    hero_perks := [], stash := [], redis := [], nextBid := 1, nextHero := 1 }

/-- C2: generate_and_store is NOT atomic.  On a user with balance 50.00 and
currency 1.00 (cost 100.00), hero generation succeeds, generate_hero commits
the hero row inside the open transaction, and only then the debit fails with
INSUFFICIENT_FUNDS; the committed state keeps the hero row (an orphan) while
no ledger row and no balance change persist — contradicting both the claim
and the docstring of generate_and_store (no partial commits). -/
theorem generate_and_store_orphan_hero :
    (generate_and_store 1 1 100 0 [] dbC2).2 = some Err.insufficientFunds ∧
    ((generate_and_store 1 1 100 0 [] dbC2).1).heroes =
      [⟨1, 1, 1, false, false, false, false, false⟩] ∧
    ((generate_and_store 1 1 100 0 [] dbC2).1).ledger = dbC2.ledger ∧
    findUser (generate_and_store 1 1 100 0 [] dbC2).1 1 = some ⟨1, 5000, 0⟩ := by
  decide

/-- Concrete state for the duration-clamp check: seller 1 owns five units of
item 7. -/
def dbC7 : DB :=
  { users := [⟨1, 0, 0⟩], ledger := [], auctions := [], lots := [], bids := [],
    autobids := [], heroes := [], hero_perks := [],
    stash := [⟨1, 7, 5⟩], redis := [], nextBid := 1, nextHero := 1 }

/-- C7 counterexample: a create request with duration = 48 is REJECTED by
the AuctionCreate validator (422), not clamped to 24 h as the claim states;
the same request with duration 24 would succeed, so the duration is the only
reason for rejection. -/
theorem create_duration_48_rejected :
    create_auction_endpoint 1 7 500 48 1 0 dbC7 = .error Err.invalidDuration ∧
    (create_auction_endpoint 1 7 500 24 1 0 dbC7).isOk = true := by
  decide

/-- C7 amended: create validates duration into [1, 24] (rejecting the rest),
and every accepted create yields end_time - created_at = duration hours,
hence at most 24 h. -/
theorem create_duration_bound {seller item : Nat} {price : Int}
    {dur qty now : Nat} {db db' : DB} {a' : AuctionRow}
    (h : create_auction_endpoint seller item price dur qty now db = .ok (db', a')) :
    1 ≤ dur ∧ dur ≤ 24 ∧
    a'.end_time - a'.created_at = dur * 3600 ∧
    a'.end_time - a'.created_at ≤ 24 * 3600 := by
  unfold create_auction_endpoint at h
  cases hv : max_24h dur with
  | error e => simp only [hv] at h; cases h
  | ok d =>
    simp only [hv] at h
    unfold max_24h at hv
    by_cases hd : dur < 1 || 24 < dur
    · rw [if_pos hd] at hv; cases hv
    · rw [if_neg hd] at hv
      injection hv with hv
      subst hv
      simp only [Bool.or_eq_true, not_or, decide_eq_true_eq] at hd
      obtain ⟨hd1, hd2⟩ := hd
      unfold create_auction at h
      cases hst : db.stash.find? (fun s => s.user_id == seller && s.item_id == item) with
      | none => simp only [hst] at h; cases h
      | some entry =>
        simp only [hst] at h
        by_cases h1 : entry.quantity < qty
        · rw [if_pos h1] at h; cases h
        · rw [if_neg h1] at h
          injection h with h
          rw [Prod.mk.injEq] at h
          obtain ⟨-, h2⟩ := h
          subst h2
          refine ⟨by omega, by omega, ?_, ?_⟩ <;> (simp; try omega)

/-- Auction row produced by the C7 witness create call (duration 24). -/
def aC7r : AuctionRow :=
  { id := 1, item_id := 7, seller_id := 1, quantity := 1,
    start_price := 500, current_price := 500, end_time := 24 * 3600,
    status := .active, winner_id := none, created_at := 0 }

/-- Result state of the C7 witness create call (duration 24). -/
def dbC7r : DB :=
  { users := [⟨1, 0, 0⟩], ledger := [], auctions := [aC7r],
    lots := [], bids := [], autobids := [], heroes := [], hero_perks := [],
    stash := [⟨1, 7, 4⟩], redis := [], nextBid := 2, nextHero := 1 }

theorem create_duration_bound_witness :
    create_auction_endpoint 1 7 500 24 1 0 dbC7 = .ok (dbC7r, aC7r) ∧
    aC7r.end_time - aC7r.created_at ≤ 24 * 3600 := by
  have h : create_auction_endpoint 1 7 500 24 1 0 dbC7 = .ok (dbC7r, aC7r) := by
    decide
  exact ⟨h, (create_duration_bound h).2.2.2⟩

/-- Concrete state for the end_time boundary check: ACTIVE auction 1 by
seller 1 with current price 1.00 and end_time 500; bidder 2 has 1000.00
available. -/
def dbC8 : DB :=
  { users := [⟨1, 0, 0⟩, ⟨2, 100000, 0⟩],
    ledger := [⟨2, 100000, "deposit", none, MoneyField.balance⟩],
    auctions := [{ id := 1, item_id := 7, seller_id := 1, quantity := 1,
                   start_price := 100, current_price := 100, end_time := 500,
                   status := .active, winner_id := none, created_at := 0 }],
    lots := [], bids := [], autobids := [], heroes := [], hero_perks := [],
    stash := [], redis := [], nextBid := 1, nextHero := 1 }

/-- C8 counterexample: a bid submitted at the instant now = end_time is NOT
rejected — the source tests end_time < now (strict), the claim demands
rejection at end_time <= now. -/
theorem bid_at_end_time_accepted :
    (findAuction dbC8 1).map (fun a => (a.status, a.end_time)) =
      some (AuctionStatus.active, 500) ∧
    (place_bid 2 1 200 none 500 dbC8).isOk = true := by
  decide

/-- find? with a predicate invariant under the map function commutes with
List.map. -/
theorem find?_map_pres {α : Type} (l : List α) (g : α → α) (p : α → Bool)
    (hp : ∀ v, p (g v) = p v) : (l.map g).find? p = (l.find? p).map g := by
  rw [List.find?_map]
  have : (p ∘ g) = p := by funext v; simp [Function.comp, hp]
  rw [this]

/-- find? returns the designated element when it satisfies the predicate
and is the only element doing so. -/
theorem find?_unique {α : Type} {l : List α} {p : α → Bool} {x : α}
    (hx : x ∈ l) (hpx : p x = true)
    (huniq : ∀ y ∈ l, p y = true → y = x) : l.find? p = some x := by
  induction l with
  | nil => cases hx
  | cons z rest ih =>
    by_cases hz : p z = true
    · have : z = x := huniq z (List.mem_cons_self z rest) hz
      subst this
      simp [List.find?, hz]
    · have hz' : p z = false := by
        cases hpz : p z
        · rfl
        · exact absurd hpz hz
      rcases List.mem_cons.mp hx with h1 | h1
      · subst h1; exact absurd hpx hz
      · simp only [List.find?, hz']
        exact ih h1 (fun y hy hpy => huniq y (List.mem_cons_of_mem z hy) hpy)

/-- Under unique auction ids, the status-filtered lookup of place_bid agrees
with the plain lookup: it returns the row exactly when that row is ACTIVE. -/
theorem findActiveAuction_of_findAuction {db : DB} {aid : Nat} {a : AuctionRow}
    (hnd : (db.auctions.map (fun x => x.id)).Nodup)
    (h : findAuction db aid = some a) :
    findActiveAuction db aid =
      if a.status = AuctionStatus.active then some a else none := by
  unfold findAuction at h
  have hmem : a ∈ db.auctions := List.mem_of_find?_eq_some h
  have hid' : a.id = aid := by simpa using List.find?_some h
  unfold findActiveAuction
  by_cases hst : a.status = AuctionStatus.active
  · rw [if_pos hst]
    refine find?_unique hmem (by simp [hid', hst]) ?_
    intro y hy hpy
    simp only [Bool.and_eq_true, beq_iff_eq] at hpy
    exact List.inj_on_of_nodup_map hnd hy hmem (by rw [hpy.1, hid'])
  · rw [if_neg hst]
    rw [List.find?_eq_none]
    intro y hy hpy
    simp only [Bool.and_eq_true, beq_iff_eq] at hpy
    have : y = a := List.inj_on_of_nodup_map hnd hy hmem (by rw [hpy.1, hid'])
    subst this
    exact hst hpy.2

/-- Same statement for hero lots. -/
theorem findActiveLot_of_findLot {db : DB} {lid : Nat} {l : LotRow}
    (hnd : (db.lots.map (fun x => x.id)).Nodup)
    (h : findLot db lid = some l) :
    findActiveLot db lid =
      if l.status = AuctionStatus.active then some l else none := by
  unfold findLot at h
  have hmem : l ∈ db.lots := List.mem_of_find?_eq_some h
  have hid' : l.id = lid := by simpa using List.find?_some h
  unfold findActiveLot
  by_cases hst : l.status = AuctionStatus.active
  · rw [if_pos hst]
    refine find?_unique hmem (by simp [hid', hst]) ?_
    intro y hy hpy
    simp only [Bool.and_eq_true, beq_iff_eq] at hpy
    exact List.inj_on_of_nodup_map hnd hy hmem (by rw [hpy.1, hid'])
  · rw [if_neg hst]
    rw [List.find?_eq_none]
    intro y hy hpy
    simp only [Bool.and_eq_true, beq_iff_eq] at hpy
    have : y = l := List.inj_on_of_nodup_map hnd hy hmem (by rw [hpy.1, hid'])
    subst this
    exact hst hpy.2

/-- The errors adjust_balance can raise; NOT_ACTIVE is not among them. -/
theorem adjust_balance_error_cases {uid : Nat} {amount : Int} {kind : String}
    {ref : Option Nat} {fld : MoneyField} {db : DB} {e : Err}
    (h : adjust_balance uid amount kind ref fld db = .error e) :
    e = Err.userNotFound ∨ e = Err.insufficientFunds ∨ e = Err.invalidReserved := by
  unfold adjust_balance at h
  cases hfu : findUser db uid with
  | none =>
    simp only [hfu] at h
    injection h with h
    exact Or.inl h.symm
  | some u =>
    simp only [hfu] at h
    cases fld with
    | balance =>
      by_cases hneg : u.balance + amount < 0
      · rw [if_pos hneg] at h
        injection h with h
        exact Or.inr (Or.inl h.symm)
      · rw [if_neg hneg] at h; cases h
    | reserved =>
      by_cases hneg : u.reserved + amount < 0
      · rw [if_pos hneg] at h
        injection h with h
        exact Or.inr (Or.inr h.symm)
      · rw [if_neg hneg] at h; cases h

/-- The errors of the release step are adjust_balance errors. -/
theorem bid_release_prev_error_cases {p : Option BidRow} {b r : Nat} {db : DB}
    {e : Err} (h : bid_release_prev p b r db = .error e) :
    e = Err.userNotFound ∨ e = Err.insufficientFunds ∨ e = Err.invalidReserved := by
  cases p with
  | none => simp only [bid_release_prev] at h; cases h
  | some pb =>
    simp only [bid_release_prev] at h
    by_cases hne : pb.bidder_id ≠ b
    · rw [if_pos hne] at h
      cases hfu : findUser db pb.bidder_id with
      | some u =>
        simp only [hfu] at h
        exact adjust_balance_error_cases h
      | none => simp only [hfu] at h; cases h
    · rw [if_neg hne] at h; cases h

/-- C8 amended: with a fresh request id and unique row ids, placeBid /
placeLotBid return the not-active error exactly when the target row has
status different from ACTIVE or end_time STRICTLY before now; a bid at the
instant end_time = now is accepted past this check (strict comparison
end_time < now in the source, not end_time <= now). -/
theorem bid_not_active_condition :
    (∀ (bidder aid : Nat) (amount : Int) (rid : Option String) (now : Nat)
       (db : DB) (a : AuctionRow),
      idempotencyHit rid db = none →
      (db.auctions.map (fun x => x.id)).Nodup →
      findAuction db aid = some a →
      (place_bid bidder aid amount rid now db = .error Err.notActive ↔
        (a.status ≠ AuctionStatus.active ∨ a.end_time < now))) ∧
    (∀ (bidder lid : Nat) (amount : Int) (rid : Option String) (now : Nat)
       (db : DB) (l : LotRow),
      idempotencyHit rid db = none →
      (db.lots.map (fun x => x.id)).Nodup →
      findLot db lid = some l →
      (place_lot_bid bidder lid amount rid now db = .error Err.notActive ↔
        (l.status ≠ AuctionStatus.active ∨ l.end_time < now))) := by
  constructor
  · intro bidder aid amount rid now db a hidem hnd hfa
    unfold place_bid
    simp only [hidem]
    rw [findActiveAuction_of_findAuction hnd hfa]
    by_cases hst : a.status = AuctionStatus.active
    · rw [if_pos hst]
      dsimp only
      by_cases hend : a.end_time < now
      · rw [if_pos hend]
        simp [hend]
      · rw [if_neg hend]
        have hrhs : ¬(a.status ≠ AuctionStatus.active ∨ a.end_time < now) := by
          simp [hst, hend]
        refine ⟨fun hx => absurd ?_ hrhs, fun hx => absurd hx hrhs⟩
        exfalso
        by_cases h2 : (a.seller_id == bidder) = true
        · rw [if_pos h2] at hx; simp at hx
        rw [if_neg h2] at hx
        by_cases h3 : amount ≤ a.current_price
        · rw [if_pos h3] at hx; simp at hx
        rw [if_neg h3] at hx
        cases hfu : findUser db bidder with
        | none => simp only [hfu] at hx; simp at hx
        | some user =>
          simp only [hfu] at hx
          by_cases h4 : user.balance - user.reserved < amount
          · rw [if_pos h4] at hx; simp at hx
          rw [if_neg h4] at hx
          cases hrel : bid_release_prev (highestAuctionBid db aid) bidder aid db with
          | error e =>
            simp only [hrel] at hx
            injection hx with hx
            rcases bid_release_prev_error_cases hrel with h5 | h5 | h5 <;>
              rw [h5] at hx <;> cases hx
          | ok db1 =>
            simp only [hrel] at hx
            cases hadj : adjust_balance bidder amount "bid_reserve" (some aid)
                MoneyField.reserved db1 with
            | error e =>
              simp only [hadj] at hx
              injection hx with hx
              rcases adjust_balance_error_cases hadj with h5 | h5 | h5 <;>
                rw [h5] at hx <;> cases hx
            | ok db2 => simp only [hadj] at hx; cases hx
    · rw [if_neg hst]
      simp [hst]
  · intro bidder lid amount rid now db l hidem hnd hfl
    unfold place_lot_bid
    simp only [hidem]
    rw [findActiveLot_of_findLot hnd hfl]
    by_cases hst : l.status = AuctionStatus.active
    · rw [if_pos hst]
      dsimp only
      by_cases hend : l.end_time < now
      · rw [if_pos hend]
        simp [hend]
      · rw [if_neg hend]
        have hrhs : ¬(l.status ≠ AuctionStatus.active ∨ l.end_time < now) := by
          simp [hst, hend]
        refine ⟨fun hx => absurd ?_ hrhs, fun hx => absurd hx hrhs⟩
        exfalso
        by_cases h2 : (l.seller_id == bidder) = true
        · rw [if_pos h2] at hx; simp at hx
        rw [if_neg h2] at hx
        by_cases h3 : amount ≤ l.current_price
        · rw [if_pos h3] at hx; simp at hx
        rw [if_neg h3] at hx
        cases hfu : findUser db bidder with
        | none => simp only [hfu] at hx; simp at hx
        | some user =>
          simp only [hfu] at hx
          by_cases h4 : user.balance - user.reserved < amount
          · rw [if_pos h4] at hx; simp at hx
          rw [if_neg h4] at hx
          cases hrel : bid_release_prev (highestLotBid db lid) bidder lid db with
          | error e =>
            simp only [hrel] at hx
            injection hx with hx
            rcases bid_release_prev_error_cases hrel with h5 | h5 | h5 <;>
              rw [h5] at hx <;> cases hx
          | ok db1 =>
            simp only [hrel] at hx
            cases hadj : adjust_balance bidder amount "bid_reserve" (some lid)
                MoneyField.reserved db1 with
            | error e =>
              simp only [hadj] at hx
              injection hx with hx
              rcases adjust_balance_error_cases hadj with h5 | h5 | h5 <;>
                rw [h5] at hx <;> cases hx
            | ok db2 => simp only [hadj] at hx; cases hx
    · rw [if_neg hst]
      simp [hst]

/-- Auction row of the C8 witness: already expired at now = 500. -/
def aC8w : AuctionRow :=
  { id := 1, item_id := 7, seller_id := 1, quantity := 1, start_price := 100,
    current_price := 100, end_time := 400, status := .active,
    winner_id := none, created_at := 0 }

/-- Concrete state for the C8 witness. -/
def dbC8w : DB :=
  { users := [⟨1, 0, 0⟩, ⟨2, 100000, 0⟩],
    ledger := [⟨2, 100000, "deposit", none, MoneyField.balance⟩],
    auctions := [aC8w], lots := [], bids := [], autobids := [], heroes := [],
    hero_perks := [], stash := [], redis := [], nextBid := 1, nextHero := 1 }

theorem bid_not_active_condition_witness :
    findAuction dbC8w 1 = some aC8w ∧
    place_bid 2 1 200 none 500 dbC8w = .error Err.notActive := by
  refine ⟨by decide, ?_⟩
  exact (bid_not_active_condition.1 2 1 200 none 500 dbC8w aC8w (by decide)
    (by decide) (by decide)).mpr (Or.inr (by decide))

theorem stashAdd_auctions (db : DB) (u i q : Nat) :
    (stashAdd db u i q).auctions = db.auctions := by
  unfold stashAdd; split <;> rfl

theorem stashAdd_lots (db : DB) (u i q : Nat) :
    (stashAdd db u i q).lots = db.lots := by
  unfold stashAdd; split <;> rfl

theorem stashAdd_heroes (db : DB) (u i q : Nat) :
    (stashAdd db u i q).heroes = db.heroes := by
  unfold stashAdd; split <;> rfl

theorem stashAdd_bids (db : DB) (u i q : Nat) :
    (stashAdd db u i q).bids = db.bids := by
  unfold stashAdd; split <;> rfl

theorem stashAdd_redis (db : DB) (u i q : Nat) :
    (stashAdd db u i q).redis = db.redis := by
  unfold stashAdd; split <;> rfl

/-- Full characterization of a successful close_auction: either the row was
no longer ACTIVE and nothing changed (idempotent re-close), or the row was
ACTIVE and the close ran the winning-bid transfer or the no-bid return. -/
theorem close_auction_ok_char {aid : Nat} {db db' : DB} {a' : AuctionRow}
    (h : close_auction aid db = .ok (db', a')) :
    ∃ a, findAuction db aid = some a ∧
      ((a.status ≠ AuctionStatus.active ∧ db' = db ∧ a' = a) ∨
       (a.status = AuctionStatus.active ∧
        ((∃ hb db1 db2,
            highestAuctionBid db aid = some hb ∧
            a' = { a with status := AuctionStatus.finished,
                          winner_id := some hb.bidder_id } ∧
            adjust_balance hb.bidder_id (-hb.amount) "auction_release_reserved"
              (some aid) MoneyField.reserved (setAuctionRow db aid a') = .ok db1 ∧
            adjust_balance a.seller_id hb.amount "auction_payout"
              (some aid) MoneyField.balance db1 = .ok db2 ∧
            db' = stashAdd db2 hb.bidder_id a.item_id a.quantity) ∨
         (highestAuctionBid db aid = none ∧
          a' = { a with status := AuctionStatus.finished } ∧
          db' = stashAdd (setAuctionRow db aid a') a.seller_id a.item_id
                  a.quantity)))) := by
  unfold close_auction at h
  cases hfa : findAuction db aid with
  | none => simp only [hfa] at h; cases h
  | some auction =>
    simp only [hfa] at h
    refine ⟨auction, rfl, ?_⟩
    by_cases hst : auction.status ≠ AuctionStatus.active
    · rw [if_pos hst] at h
      injection h with h
      rw [Prod.mk.injEq] at h
      exact Or.inl ⟨hst, h.1.symm, h.2.symm⟩
    · rw [if_neg hst] at h
      push_neg at hst
      refine Or.inr ⟨hst, ?_⟩
      cases hhb : highestAuctionBid db aid with
      | some hb =>
        simp only [hhb] at h
        cases hw : findUser (setAuctionRow db aid { auction with
            status := AuctionStatus.finished,
            winner_id := some hb.bidder_id }) hb.bidder_id with
        | none => simp only [hw] at h; cases h
        | some w =>
          simp only [hw] at h
          cases hs : findUser (setAuctionRow db aid { auction with
              status := AuctionStatus.finished,
              winner_id := some hb.bidder_id }) auction.seller_id with
          | none => simp only [hs] at h; cases h
          | some sel =>
            simp only [hs] at h
            cases hadj1 : adjust_balance hb.bidder_id (-hb.amount)
                "auction_release_reserved" (some aid) MoneyField.reserved
                (setAuctionRow db aid { auction with
                  status := AuctionStatus.finished,
                  winner_id := some hb.bidder_id }) with
            | error e => simp only [hadj1] at h; cases h
            | ok db1 =>
              simp only [hadj1] at h
              cases hadj2 : adjust_balance auction.seller_id hb.amount
                  "auction_payout" (some aid) MoneyField.balance db1 with
              | error e => simp only [hadj2] at h; cases h
              | ok db2 =>
                simp only [hadj2] at h
                injection h with h
                rw [Prod.mk.injEq] at h
                obtain ⟨h1, h2⟩ := h
                exact Or.inl ⟨hb, db1, db2, rfl, h2.symm, by rw [← h2]; exact hadj1, hadj2, h1.symm⟩
      | none =>
        simp only [hhb] at h
        injection h with h
        rw [Prod.mk.injEq] at h
        obtain ⟨h1, h2⟩ := h
        exact Or.inr ⟨rfl, h2.symm, by rw [← h2, ← h1]⟩

/-- Full characterization of a successful close_auction_lot. -/
theorem close_auction_lot_ok_char {lid : Nat} {db db' : DB} {l' : LotRow}
    (h : close_auction_lot lid db = .ok (db', l')) :
    ∃ l, findLot db lid = some l ∧
      ((l.status ≠ AuctionStatus.active ∧ db' = db ∧ l' = l) ∨
       (l.status = AuctionStatus.active ∧ (findHero db l.hero_id).isSome ∧
        ((∃ hb db1 db2,
            highestLotBid db lid = some hb ∧
            l' = { l with status := AuctionStatus.finished,
                          winner_id := some hb.bidder_id } ∧
            adjust_balance hb.bidder_id (-hb.amount) "auction_release_reserved"
              (some lid) MoneyField.reserved db = .ok db1 ∧
            adjust_balance l.seller_id hb.amount "auction_payout"
              (some lid) MoneyField.balance db1 = .ok db2 ∧
            db' = lotCloseFinish db2 lid l.hero_id (some hb.bidder_id) l') ∨
         (highestLotBid db lid = none ∧
          l' = { l with status := AuctionStatus.finished } ∧
          db' = lotCloseFinish db lid l.hero_id none l')))) := by
  unfold close_auction_lot at h
  cases hfl : findLot db lid with
  | none => simp only [hfl] at h; cases h
  | some lot =>
    simp only [hfl] at h
    refine ⟨lot, rfl, ?_⟩
    by_cases hst : lot.status ≠ AuctionStatus.active
    · rw [if_pos hst] at h
      injection h with h
      rw [Prod.mk.injEq] at h
      exact Or.inl ⟨hst, h.1.symm, h.2.symm⟩
    · rw [if_neg hst] at h
      push_neg at hst
      cases hfh : findHero db lot.hero_id with
      | none => simp only [hfh] at h; cases h
      | some hero =>
        simp only [hfh] at h
        refine Or.inr ⟨hst, rfl, ?_⟩
        cases hhb : highestLotBid db lid with
        | some hb =>
          simp only [hhb] at h
          cases hw : findUser db hb.bidder_id with
          | none => simp only [hw] at h; cases h
          | some w =>
            simp only [hw] at h
            cases hs : findUser db lot.seller_id with
            | none => simp only [hs] at h; cases h
            | some sel =>
              simp only [hs] at h
              cases hadj1 : adjust_balance hb.bidder_id (-hb.amount)
                  "auction_release_reserved" (some lid) MoneyField.reserved db with
              | error e => simp only [hadj1] at h; cases h
              | ok db1 =>
                simp only [hadj1] at h
                cases hadj2 : adjust_balance lot.seller_id hb.amount
                    "auction_payout" (some lid) MoneyField.balance db1 with
                | error e => simp only [hadj2] at h; cases h
                | ok db2 =>
                  simp only [hadj2] at h
                  injection h with h
                  rw [Prod.mk.injEq] at h
                  obtain ⟨h1, h2⟩ := h
                  exact Or.inl ⟨hb, db1, db2, rfl, h2.symm, hadj1, hadj2,
                    by rw [← h2, ← h1]⟩
        | none =>
          simp only [hhb] at h
          injection h with h
          rw [Prod.mk.injEq] at h
          obtain ⟨h1, h2⟩ := h
          exact Or.inr ⟨rfl, h2.symm, by rw [← h2, ← h1]⟩

/-- A close never touches the AuctionLot, Redis or Hero tables. -/
theorem close_auction_ok_tables {aid : Nat} {db db' : DB} {a' : AuctionRow}
    (h : close_auction aid db = .ok (db', a')) :
    db'.lots = db.lots ∧ db'.redis = db.redis ∧ db'.heroes = db.heroes := by
  obtain ⟨a, hfa, hcase⟩ := close_auction_ok_char h
  rcases hcase with ⟨-, h1, -⟩ | ⟨-, ⟨hb, db1, db2, -, -, hadj1, hadj2, h1⟩ | ⟨-, -, h1⟩⟩
  · rw [h1]; exact ⟨rfl, rfl, rfl⟩
  · obtain ⟨-, -, -, -, hl1, -, -, hh1, -, -, hr1, -, -, -⟩ :=
      adjust_balance_ok_char hadj1
    obtain ⟨-, -, -, -, hl2, -, -, hh2, -, -, hr2, -, -, -⟩ :=
      adjust_balance_ok_char hadj2
    rw [h1]
    refine ⟨?_, ?_, ?_⟩
    · rw [stashAdd_lots, hl2, hl1]; rfl
    · rw [stashAdd_redis, hr2, hr1]; rfl
    · rw [stashAdd_heroes, hh2, hh1]; rfl
  · rw [h1]
    exact ⟨by rw [stashAdd_lots]; rfl, by rw [stashAdd_redis]; rfl,
      by rw [stashAdd_heroes]; rfl⟩

theorem runClose_tables (db : DB) (aid : Nat) :
    (runClose db aid).lots = db.lots ∧ (runClose db aid).redis = db.redis ∧
    (runClose db aid).heroes = db.heroes := by
  unfold runClose
  cases h : close_auction aid db with
  | ok pr =>
    obtain ⟨db1, a1⟩ := pr
    exact close_auction_ok_tables h
  | error e => exact ⟨rfl, rfl, rfl⟩

theorem foldl_runClose_tables (ids : List Nat) (db : DB) :
    (ids.foldl runClose db).lots = db.lots ∧
    (ids.foldl runClose db).redis = db.redis ∧
    (ids.foldl runClose db).heroes = db.heroes := by
  induction ids generalizing db with
  | nil => exact ⟨rfl, rfl, rfl⟩
  | cons a rest ih =>
    obtain ⟨h1, h2, h3⟩ := ih (runClose db a)
    obtain ⟨g1, g2, g3⟩ := runClose_tables db a
    exact ⟨by rw [List.foldl_cons, h1, g1], by rw [List.foldl_cons, h2, g2],
      by rw [List.foldl_cons, h3, g3]⟩

/-- A close leaves every auction row with a different id in place. -/
theorem close_auction_keeps_other {aid : Nat} {db db' : DB} {a' : AuctionRow}
    (h : close_auction aid db = .ok (db', a')) {a : AuctionRow}
    (ha : a ∈ db.auctions) (hne : a.id ≠ aid) : a ∈ db'.auctions := by
  obtain ⟨a0, hfa, hcase⟩ := close_auction_ok_char h
  have hmap : ∀ (a1 : AuctionRow),
      a ∈ (setAuctionRow db aid a1).auctions := by
    intro a1
    unfold setAuctionRow
    refine List.mem_map.mpr ⟨a, ha, ?_⟩
    simp [hne]
  rcases hcase with ⟨-, h1, -⟩ | ⟨-, ⟨hb, db1, db2, -, -, hadj1, hadj2, h1⟩ | ⟨-, -, h1⟩⟩
  · rw [h1]; exact ha
  · obtain ⟨-, -, -, ha1, -⟩ := adjust_balance_ok_char hadj1
    obtain ⟨-, -, -, ha2, -⟩ := adjust_balance_ok_char hadj2
    rw [h1, stashAdd_auctions, ha2, ha1]
    exact hmap _
  · rw [h1, stashAdd_auctions]
    exact hmap _

theorem runClose_keeps_other (db : DB) (aid : Nat) {a : AuctionRow}
    (ha : a ∈ db.auctions) (hne : a.id ≠ aid) : a ∈ (runClose db aid).auctions := by
  unfold runClose
  cases h : close_auction aid db with
  | ok pr =>
    obtain ⟨db1, a1⟩ := pr
    exact close_auction_keeps_other h ha hne
  | error e => exact ha

theorem foldl_runClose_keeps (ids : List Nat) (db : DB) {a : AuctionRow}
    (ha : a ∈ db.auctions) (hids : a.id ∉ ids) :
    a ∈ (ids.foldl runClose db).auctions := by
  induction ids generalizing db with
  | nil => exact ha
  | cons x rest ih =>
    rw [List.foldl_cons]
    have hx : a.id ≠ x := fun hc => hids (by rw [hc]; exact List.mem_cons_self x rest)
    exact ih (runClose db x) (runClose_keeps_other db x ha hx)
      (fun hc => hids (List.mem_cons_of_mem x hc))

/-- Concrete state for the sweeper check: one expired ACTIVE hero lot and
its hero, no item auctions; Redis is empty (no lock record). -/
def dbC5 : DB :=
  { users := [⟨1, 0, 0⟩], ledger := [], auctions := [],
    lots := [{ id := 1, hero_id := 1, seller_id := 1, starting_price := 500,
               current_price := 500, buyout_price := none, end_time := 100,
               status := .active, winner_id := none }],
    bids := [], autobids := [],
    heroes := [⟨1, 1, 1, false, false, true, false, false⟩],
    hero_perks := [], stash := [], redis := [], nextBid := 1, nextHero := 2 }

/-- C5 counterexample: at now = 200 the sweeper iteration leaves the state
with an expired ACTIVE lot completely unchanged: the expired lot is not
closed (stays ACTIVE, contradicting the claimed closeLot pass) and the Redis
key space is untouched (no dist_lock:auction_sweep acquisition is even
attempted; the task body in tasks/auctions.py holds no lock code and no
AuctionLot query). -/
theorem sweeper_ignores_lots_and_lock :
    (findLot dbC5 1).map (fun l => (l.status, l.end_time)) =
      some (AuctionStatus.active, 100) ∧
    close_expired_auctions_iteration 200 dbC5 = dbC5 ∧
    (findLot (close_expired_auctions_iteration 200 dbC5) 1).map
      (fun l => l.status) = some AuctionStatus.active := by
  decide

/-- C5 amended: one sweeper iteration selects the expired ACTIVE item
auctions and folds close_auction over them with per-row error isolation; it
never changes the AuctionLot, Hero or Redis state, and every auction row
that is not selected (in particular every row that is not ACTIVE or not yet
expired, under unique ids) survives unchanged. -/
theorem sweeper_scope (now : Nat) (db : DB) :
    (close_expired_auctions_iteration now db).lots = db.lots ∧
    (close_expired_auctions_iteration now db).redis = db.redis ∧
    (close_expired_auctions_iteration now db).heroes = db.heroes ∧
    (∀ a ∈ db.auctions, a.id ∉ expiredAuctionIds db now →
      a ∈ (close_expired_auctions_iteration now db).auctions) ∧
    ((db.auctions.map (fun x => x.id)).Nodup →
      ∀ a ∈ db.auctions, (a.status ≠ AuctionStatus.active ∨ now < a.end_time) →
        a ∈ (close_expired_auctions_iteration now db).auctions) := by
  obtain ⟨h1, h2, h3⟩ := foldl_runClose_tables (expiredAuctionIds db now) db
  refine ⟨h1, h2, h3, ?_, ?_⟩
  · intro a ha hout
    exact foldl_runClose_keeps _ _ ha hout
  · intro hnd a ha hcond
    refine foldl_runClose_keeps _ _ ha ?_
    intro hmem
    unfold expiredAuctionIds at hmem
    obtain ⟨b, hbmem, hbid⟩ := List.mem_map.mp hmem
    have hbfil := List.mem_filter.mp hbmem
    have hba : b = a := List.inj_on_of_nodup_map hnd hbfil.1 ha hbid
    subst hba
    simp only [Bool.and_eq_true, beq_iff_eq, decide_eq_true_eq] at hbfil
    rcases hcond with hc | hc
    · exact hc hbfil.2.1
    · omega

/-- A not-yet-expired ACTIVE auction used by the C5 witness. -/
def aC5w2 : AuctionRow :=
  { id := 2, item_id := 8, seller_id := 1, quantity := 1, start_price := 100,
    current_price := 100, end_time := 1000000, status := .active,
    winner_id := none, created_at := 0 }

/-- Concrete state for the C5 witness: one expired ACTIVE auction (id 1)
and one future ACTIVE auction (id 2). -/
def dbC5w : DB :=
  { users := [⟨1, 0, 0⟩], ledger := [],
    auctions := [{ id := 1, item_id := 7, seller_id := 1, quantity := 1,
                   start_price := 100, current_price := 100, end_time := 100,
                   status := .active, winner_id := none, created_at := 0 },
                 aC5w2],
    lots := [], bids := [], autobids := [], heroes := [], hero_perks := [],
    stash := [], redis := [], nextBid := 3, nextHero := 1 }

theorem sweeper_scope_witness :
    (close_expired_auctions_iteration 200 dbC5w).lots = dbC5w.lots ∧
    (close_expired_auctions_iteration 200 dbC5w).redis = dbC5w.redis ∧
    aC5w2 ∈ (close_expired_auctions_iteration 200 dbC5w).auctions := by
  refine ⟨(sweeper_scope 200 dbC5w).1, (sweeper_scope 200 dbC5w).2.1, ?_⟩
  exact (sweeper_scope 200 dbC5w).2.2.2.2 (by decide) aC5w2 (by decide)
    (Or.inr (by decide))

theorem userLocks_append (l1 l2 : List LockEvent) :
    userLocks (l1 ++ l2) = userLocks l1 ++ userLocks l2 := by
  unfold userLocks
  rw [List.filterMap_append]

theorem userLocks_nil : userLocks [] = [] := rfl

theorem userLocks_cons_auction (i : Nat) (tr : List LockEvent) :
    userLocks (LockEvent.auctionRow i :: tr) = userLocks tr := rfl

theorem userLocks_cons_lot (i : Nat) (tr : List LockEvent) :
    userLocks (LockEvent.lotRow i :: tr) = userLocks tr := rfl

theorem userLocks_cons_hero (i : Nat) (tr : List LockEvent) :
    userLocks (LockEvent.heroRow i :: tr) = userLocks tr := rfl

theorem userLocks_cons_user (u : Nat) (tr : List LockEvent) :
    userLocks (LockEvent.userRow u :: tr) = u :: userLocks tr := rfl

theorem userLocks_stash (db : DB) (u i : Nat) :
    userLocks (stashLockOf db u i) = [] := by
  unfold stashLockOf userLocks
  split <;> rfl

/-- Concrete state for the lock-order check: auction 1 sold by user 3 with
the highest bid held by user 5 (an id HIGHER than the seller id). -/
def dbC9 : DB :=
  { users := [⟨3, 0, 0⟩, ⟨5, 100000, 20000⟩],
    ledger := [⟨5, 100000, "deposit", none, MoneyField.balance⟩,
               ⟨5, 20000, "bid_reserve", some 1, MoneyField.reserved⟩],
    auctions := [{ id := 1, item_id := 7, seller_id := 3, quantity := 1,
                   start_price := 100, current_price := 20000, end_time := 100,
                   status := .active, winner_id := some 5, created_at := 0 }],
    lots := [], bids := [⟨1, none, some 1, none, 5, 20000⟩], autobids := [],
    heroes := [], hero_perks := [], stash := [], redis := [],
    nextBid := 2, nextHero := 1 }

/-- C9 counterexample: closing auction 1 of dbC9 acquires the user-row locks
in the order [5, 3, 5, 3] — the winner (id 5) is locked BEFORE the seller
(id 3) although 3 < 5, refuting the claimed ascending-id lock order. -/
theorem close_locks_higher_user_first :
    userLocks (close_auction_locks 1 dbC9) = [5, 3, 5, 3] ∧
    (findAuction dbC9 1).map (fun a => a.seller_id) = some 3 ∧
    (highestAuctionBid dbC9 1).map (fun b => b.bidder_id) = some 5 ∧
    (close_auction 1 dbC9).isOk = true := by
  decide

/-- C9 amended: in every successful close of an ACTIVE auction/lot with a
highest bid, the engine locks the user rows winner-first, then seller, then
re-locks them in the same order inside the two ledger adjustments —
irrespective of which id is smaller. -/
theorem close_user_lock_order :
    (∀ (aid : Nat) (db db' : DB) (a' a : AuctionRow) (hb : BidRow),
      close_auction aid db = .ok (db', a') →
      findAuction db aid = some a →
      a.status = AuctionStatus.active →
      highestAuctionBid db aid = some hb →
      userLocks (close_auction_locks aid db) =
        [hb.bidder_id, a.seller_id, hb.bidder_id, a.seller_id]) ∧
    (∀ (lid : Nat) (db db' : DB) (l' l : LotRow) (hb : BidRow),
      close_auction_lot lid db = .ok (db', l') →
      findLot db lid = some l →
      l.status = AuctionStatus.active →
      highestLotBid db lid = some hb →
      userLocks (close_auction_lot_locks lid db) =
        [hb.bidder_id, l.seller_id, hb.bidder_id, l.seller_id]) := by
  constructor
  · intro aid db db' a' a hb h hfa hst hhb
    obtain ⟨a0, hfa0, hcase⟩ := close_auction_ok_char h
    rw [hfa] at hfa0
    injection hfa0 with hfa0
    subst hfa0
    rcases hcase with ⟨hbad, -, -⟩ | ⟨-, hcase⟩
    · exact absurd hst hbad
    rcases hcase with ⟨hb0, db1, db2, hhb0, ha', hadj1, hadj2, -⟩ | ⟨hnone, -, -⟩
    swap
    · rw [hhb] at hnone; cases hnone
    rw [hhb] at hhb0
    injection hhb0 with hhb0
    subst hhb0
    obtain ⟨w, hw, -⟩ := adjust_balance_ok_char hadj1
    obtain ⟨s1, hs1, -⟩ := adjust_balance_ok_char hadj2
    have hsSt : ∃ s0, findUser (setAuctionRow db aid a') a.seller_id = some s0 := by
      by_cases hws : a.seller_id = hb.bidder_id
      · exact ⟨w, by rw [hws]; exact hw⟩
      · refine ⟨s1, ?_⟩
        rw [← adjust_balance_ok_findUser_other hadj1 hws]
        exact hs1
    obtain ⟨s0, hs0⟩ := hsSt
    unfold close_auction_locks
    simp only [hfa]
    have hst' : ¬ a.status ≠ AuctionStatus.active := by simp [hst]
    rw [if_neg hst']
    simp only [hhb]
    rw [← ha']
    simp only [userLockOf, hw, hs0, hadj1, hs1, hadj2]
    simp only [userLocks_cons_auction, userLocks_append, userLocks_cons_user,
      userLocks_nil, userLocks_stash]
    simp
  · intro lid db db' l' l hb h hfl hst hhb
    obtain ⟨l0, hfl0, hcase⟩ := close_auction_lot_ok_char h
    rw [hfl] at hfl0
    injection hfl0 with hfl0
    subst hfl0
    rcases hcase with ⟨hbad, -, -⟩ | ⟨-, hhero, hcase⟩
    · exact absurd hst hbad
    rcases hcase with ⟨hb0, db1, db2, hhb0, hl', hadj1, hadj2, -⟩ | ⟨hnone, -, -⟩
    swap
    · rw [hhb] at hnone; cases hnone
    rw [hhb] at hhb0
    injection hhb0 with hhb0
    subst hhb0
    obtain ⟨w, hw, -⟩ := adjust_balance_ok_char hadj1
    obtain ⟨s1, hs1, -⟩ := adjust_balance_ok_char hadj2
    have hsSt : ∃ s0, findUser db l.seller_id = some s0 := by
      by_cases hws : l.seller_id = hb.bidder_id
      · exact ⟨w, by rw [hws]; exact hw⟩
      · refine ⟨s1, ?_⟩
        rw [← adjust_balance_ok_findUser_other hadj1 hws]
        exact hs1
    obtain ⟨s0, hs0⟩ := hsSt
    cases hfh : findHero db l.hero_id with
    | none => rw [hfh] at hhero; cases hhero
    | some hero =>
      unfold close_auction_lot_locks
      simp only [hfl]
      have hst' : ¬ l.status ≠ AuctionStatus.active := by simp [hst]
      rw [if_neg hst']
      simp only [hfh, hhb]
      simp only [userLockOf, hw, hs0, hadj1, hs1, hadj2]
      simp only [userLocks_cons_lot, userLocks_cons_hero, userLocks_append,
        userLocks_cons_user, userLocks_nil]
      simp

/-- The ACTIVE auction row of dbC9. -/
def aC9 : AuctionRow :=
  { id := 1, item_id := 7, seller_id := 3, quantity := 1, start_price := 100,
    current_price := 20000, end_time := 100, status := .active,
    winner_id := some 5, created_at := 0 }

/-- The highest (only) bid of dbC9. -/
def hbC9 : BidRow := ⟨1, none, some 1, none, 5, 20000⟩

/-- The auction row after the witness close. -/
def aC9r : AuctionRow := { aC9 with status := .finished, winner_id := some 5 }

/-- The committed state after the witness close of dbC9. -/
def dbC9r : DB :=
  { users := [⟨3, 20000, 0⟩, ⟨5, 100000, 0⟩],
    ledger := [⟨5, 100000, "deposit", none, MoneyField.balance⟩,
               ⟨5, 20000, "bid_reserve", some 1, MoneyField.reserved⟩,
               ⟨5, -20000, "auction_release_reserved", some 1, MoneyField.reserved⟩,
               ⟨3, 20000, "auction_payout", some 1, MoneyField.balance⟩],
    auctions := [aC9r], lots := [], bids := [⟨1, none, some 1, none, 5, 20000⟩],
    autobids := [], heroes := [], hero_perks := [], stash := [⟨5, 7, 1⟩],
    redis := [], nextBid := 2, nextHero := 1 }

theorem close_user_lock_order_witness :
    close_auction 1 dbC9 = .ok (dbC9r, aC9r) ∧
    userLocks (close_auction_locks 1 dbC9) =
      [hbC9.bidder_id, aC9.seller_id, hbC9.bidder_id, aC9.seller_id] := by
  have h : close_auction 1 dbC9 = .ok (dbC9r, aC9r) := by decide
  exact ⟨h, close_user_lock_order.1 1 dbC9 dbC9r aC9r aC9 hbC9 h (by decide)
    (by decide) (by decide)⟩

/-- A successful adjust keeps both money columns non-negative (the new value
of the adjusted column is guarded, the other column is untouched). -/
theorem adjust_preserves_nonneg {uid : Nat} {amount : Int} {kind : String}
    {ref : Option Nat} {fld : MoneyField} {db db' : DB}
    (h : adjust_balance uid amount kind ref fld db = .ok db') :
    NonNeg db → NonNeg db' := by
  intro hnn
  obtain ⟨u, hu, -, -, -, -, -, -, -, -, -, -, -, hcase⟩ := adjust_balance_ok_char h
  rcases hcase with ⟨-, hpos, husers⟩ | ⟨-, hpos, husers⟩
  · intro w hw
    rw [husers] at hw
    obtain ⟨v, hv, hgv⟩ := List.mem_map.mp hw
    obtain ⟨hb, hr⟩ := hnn v hv
    subst hgv
    unfold setBal
    by_cases hvu : (v.id == uid) = true
    · rw [if_pos hvu]
      exact ⟨hpos, hr⟩
    · rw [if_neg hvu]
      exact ⟨hb, hr⟩
  · intro w hw
    rw [husers] at hw
    obtain ⟨v, hv, hgv⟩ := List.mem_map.mp hw
    obtain ⟨hb, hr⟩ := hnn v hv
    subst hgv
    unfold setRes
    by_cases hvu : (v.id == uid) = true
    · rw [if_pos hvu]
      exact ⟨hb, hpos⟩
    · rw [if_neg hvu]
      exact ⟨hb, hr⟩

theorem moneyStep_preserves_nonneg {db db' : DB} (h : MoneyStep db db') :
    NonNeg db → NonNeg db' := by
  induction h with
  | done db => exact id
  | adjust ha _ ih => exact fun hi => ih (adjust_preserves_nonneg ha hi)
  | neutral hu hl _ ih =>
    exact fun hi => ih (fun w hw => hi w (by rw [← hu]; exact hw))

/-- The ACTIVE auction of the C4 scenario. -/
def aC4 : AuctionRow :=
  { id := 10, item_id := 7, seller_id := 1, quantity := 1, start_price := 50,
    current_price := 50, end_time := 1000, status := .active,
    winner_id := none, created_at := 0 }

/-- Concrete start state for the C4 scenario: user 2 holds 100.00, fully
reconciled and non-negative, with reserved not exceeding balance. -/
def dbC4 : DB :=
  { users := [⟨1, 0, 0⟩, ⟨2, 10000, 0⟩],
    ledger := [⟨2, 10000, "deposit", none, MoneyField.balance⟩],
    auctions := [aC4], lots := [], bids := [], autobids := [], heroes := [],
    hero_perks := [], stash := [], redis := [], nextBid := 1, nextHero := 1 }

/-- The C4 scenario: user 2 bids the full balance, then generates a hero. -/
def opsC4 : List Op :=
  [Op.opPlaceBid 2 10 10000 none 0, Op.opGenerateHero 2 1 100 0 []]

/-- C4 counterexample: from a well-formed state satisfying
balance >= reserved, a bid of the full balance (100.00) followed by a hero
generation (cost 100.00) yields a committed state with balance = 0 and
reserved = 100.00 — the debit in generate_and_store checks only
balance >= 0, never available = balance - reserved, so balance >= reserved
(equivalently available >= 0) is violated. -/
theorem hero_generation_breaks_available :
    MoneyInv dbC4 ∧ BalGeRes dbC4 ∧
    findUser (applyOps opsC4 dbC4) 2 = some ⟨2, 0, 10000⟩ ∧
    ¬ BalGeRes (applyOps opsC4 dbC4) := by
  decide

/-- C4 amended: every committed state reachable by core operations from a
non-negative state satisfies balance >= 0 and reserved >= 0 (each enforced
by adjust_balance per column); balance >= reserved is NOT an invariant. -/
theorem nonneg_invariant (ops : List Op) (db0 : DB) (h : NonNeg db0) :
    NonNeg (applyOps ops db0) := by
  induction ops generalizing db0 with
  | nil => exact h
  | cons op rest ih =>
    exact ih (applyOp op db0)
      (moneyStep_preserves_nonneg (applyOp_moneyStep op db0) h)

theorem nonneg_invariant_witness :
    NonNeg dbC4 ∧ NonNeg (applyOps opsC4 dbC4) :=
  ⟨by decide, nonneg_invariant opsC4 dbC4 (by decide)⟩

/-- Concrete start state for the C3 witness. -/
def dbC3 : DB :=
  { users := [⟨1, 0, 0⟩, ⟨2, 50000, 0⟩],
    ledger := [⟨2, 50000, "deposit", none, MoneyField.balance⟩],
    auctions := [{ id := 4, item_id := 9, seller_id := 1, quantity := 2,
                   start_price := 100, current_price := 100, end_time := 900,
                   status := .active, winner_id := none, created_at := 0 }],
    lots := [], bids := [], autobids := [], heroes := [], hero_perks := [],
    stash := [], redis := [], nextBid := 1, nextHero := 1 }

/-- The C3 witness trace: a bid, then the close of the auction. -/
def opsC3 : List Op :=
  [Op.opPlaceBid 2 4 20000 none 0, Op.opCloseAuction 4]

/-- C3: conservation of money.  (1) After any sequence of core operations
from a reconciled state, every user balance equals the sum of the ledger
amounts recorded for the balance field and every reserved equals the sum
for the reserved field.  (2) Every successful adjust_balance appends exactly
one ledger row carrying the applied delta and field.  (3) Every core
operation moves the committed state along MoneyStep, i.e. all
balance/reserved writes factor through adjust_balance. -/
theorem conservation_of_money :
    (∀ (ops : List Op) (db0 : DB), MoneyInv db0 → Reconciled (applyOps ops db0)) ∧
    (∀ (uid : Nat) (amount : Int) (kind : String) (ref : Option Nat)
       (fld : MoneyField) (db db' : DB),
      adjust_balance uid amount kind ref fld db = .ok db' →
      db'.ledger = db.ledger ++ [⟨uid, amount, kind, ref, fld⟩]) ∧
    (∀ (op : Op) (db : DB), MoneyStep db (applyOp op db)) := by
  refine ⟨?_, ?_, applyOp_moneyStep⟩
  · intro ops db0 h
    exact (applyOps_preserves_moneyInv ops db0 h).2.1
  · intro uid amount kind ref fld db db' h
    obtain ⟨u, -, hl, -⟩ := adjust_balance_ok_char h
    exact hl

theorem conservation_of_money_witness :
    MoneyInv dbC3 ∧ Reconciled (applyOps opsC3 dbC3) :=
  ⟨by decide, conservation_of_money.1 opsC3 dbC3 (by decide)⟩

theorem find?_append_none {α : Type} {l1 l2 : List α} {p : α → Bool}
    (h : l1.find? p = none) : (l1 ++ l2).find? p = l2.find? p := by
  rw [List.find?_eq_none] at h
  induction l1 with
  | nil => rfl
  | cons x rest ih =>
    rw [List.cons_append, List.find?_cons_of_neg _ (h x (List.mem_cons_self x rest))]
    exact ih (fun y hy => h y (List.mem_cons_of_mem x hy))

/-- The release step never touches the bid table, the auction/lot tables,
the id counter, or the row of the new bidder. -/
theorem bid_release_prev_ok_tables {p : Option BidRow} {b r : Nat} {db db1 : DB}
    (h : bid_release_prev p b r db = .ok db1) :
    db1.bids = db.bids ∧ db1.auctions = db.auctions ∧ db1.lots = db.lots ∧
    db1.nextBid = db.nextBid ∧ findUser db1 b = findUser db b := by
  cases p with
  | none =>
    simp only [bid_release_prev] at h
    injection h with h
    subst h
    exact ⟨rfl, rfl, rfl, rfl, rfl⟩
  | some pb =>
    simp only [bid_release_prev] at h
    by_cases hne : pb.bidder_id ≠ b
    · rw [if_pos hne] at h
      cases hfu : findUser db pb.bidder_id with
      | some u =>
        simp only [hfu] at h
        obtain ⟨-, -, -, ha, hl, hbids, -, -, -, -, -, hnb, -, -⟩ :=
          adjust_balance_ok_char h
        exact ⟨hbids, ha, hl, hnb, adjust_balance_ok_findUser_other h (Ne.symm hne)⟩
      | none =>
        simp only [hfu] at h
        injection h with h
        subst h
        exact ⟨rfl, rfl, rfl, rfl, rfl⟩
    · rw [if_neg hne] at h
      injection h with h
      subst h
      exact ⟨rfl, rfl, rfl, rfl, rfl⟩

/-- Full characterization of a successful fresh place_bid (idempotency
lookup missed): all guards passed, the optional release and the reserve ran
through the Ledger, the bid row was appended with the request id, and the
auction row was updated to the new price and winner. -/
theorem place_bid_ok_char {bidder aid : Nat} {amount : Int} {rid : Option String}
    {now : Nat} {db db' : DB} {bid : BidRow}
    (hfresh : idempotencyHit rid db = none)
    (h : place_bid bidder aid amount rid now db = .ok (db', bid)) :
    ∃ auction user db1 db2,
      findActiveAuction db aid = some auction ∧
      ¬ auction.end_time < now ∧
      (auction.seller_id == bidder) = false ∧
      auction.current_price < amount ∧
      findUser db bidder = some user ∧
      amount ≤ user.balance - user.reserved ∧
      bid_release_prev (highestAuctionBid db aid) bidder aid db = .ok db1 ∧
      adjust_balance bidder amount "bid_reserve" (some aid) MoneyField.reserved
        db1 = .ok db2 ∧
      bid = ⟨db2.nextBid, rid, some aid, none, bidder, amount⟩ ∧
      db' = { db2 with
        bids := db2.bids ++ [bid],
        auctions := db2.auctions.map (bidAuctionUpd aid amount bidder),
        nextBid := db2.nextBid + 1 } := by
  unfold place_bid at h
  simp only [hfresh] at h
  cases hfa : findActiveAuction db aid with
  | none => simp only [hfa] at h; cases h
  | some auction =>
    simp only [hfa] at h
    by_cases h1 : auction.end_time < now
    · rw [if_pos h1] at h; simp at h
    rw [if_neg h1] at h
    by_cases h2 : (auction.seller_id == bidder) = true
    · rw [if_pos h2] at h; simp at h
    rw [if_neg h2] at h
    by_cases h3 : amount ≤ auction.current_price
    · rw [if_pos h3] at h; simp at h
    rw [if_neg h3] at h
    cases hfu : findUser db bidder with
    | none => simp only [hfu] at h; cases h
    | some user =>
      simp only [hfu] at h
      by_cases h4 : user.balance - user.reserved < amount
      · rw [if_pos h4] at h; simp at h
      rw [if_neg h4] at h
      cases hrel : bid_release_prev (highestAuctionBid db aid) bidder aid db with
      | error e => simp only [hrel] at h; cases h
      | ok db1 =>
        simp only [hrel] at h
        cases hadj : adjust_balance bidder amount "bid_reserve" (some aid)
            MoneyField.reserved db1 with
        | error e => simp only [hadj] at h; cases h
        | ok db2 =>
          simp only [hadj] at h
          injection h with h
          rw [Prod.mk.injEq] at h
          obtain ⟨h5, h6⟩ := h
          refine ⟨auction, user, db1, db2, rfl, h1, by simpa using h2, by omega,
            rfl, by omega, rfl, hadj, h6.symm, ?_⟩
          rw [← h5, ← h6]

/-- Full characterization of a successful fresh place_lot_bid. -/
theorem place_lot_bid_ok_char {bidder lid : Nat} {amount : Int} {rid : Option String}
    {now : Nat} {db db' : DB} {bid : BidRow}
    (hfresh : idempotencyHit rid db = none)
    (h : place_lot_bid bidder lid amount rid now db = .ok (db', bid)) :
    ∃ lot user db1 db2,
      findActiveLot db lid = some lot ∧
      ¬ lot.end_time < now ∧
      (lot.seller_id == bidder) = false ∧
      lot.current_price < amount ∧
      findUser db bidder = some user ∧
      amount ≤ user.balance - user.reserved ∧
      bid_release_prev (highestLotBid db lid) bidder lid db = .ok db1 ∧
      adjust_balance bidder amount "bid_reserve" (some lid) MoneyField.reserved
        db1 = .ok db2 ∧
      bid = ⟨db2.nextBid, rid, none, some lid, bidder, amount⟩ ∧
      db' = { db2 with
        bids := db2.bids ++ [bid],
        lots := db2.lots.map (bidLotUpd lid amount bidder),
        nextBid := db2.nextBid + 1 } := by
  unfold place_lot_bid at h
  simp only [hfresh] at h
  cases hfa : findActiveLot db lid with
  | none => simp only [hfa] at h; cases h
  | some lot =>
    simp only [hfa] at h
    by_cases h1 : lot.end_time < now
    · rw [if_pos h1] at h; simp at h
    rw [if_neg h1] at h
    by_cases h2 : (lot.seller_id == bidder) = true
    · rw [if_pos h2] at h; simp at h
    rw [if_neg h2] at h
    by_cases h3 : amount ≤ lot.current_price
    · rw [if_pos h3] at h; simp at h
    rw [if_neg h3] at h
    cases hfu : findUser db bidder with
    | none => simp only [hfu] at h; cases h
    | some user =>
      simp only [hfu] at h
      by_cases h4 : user.balance - user.reserved < amount
      · rw [if_pos h4] at h; simp at h
      rw [if_neg h4] at h
      cases hrel : bid_release_prev (highestLotBid db lid) bidder lid db with
      | error e => simp only [hrel] at h; cases h
      | ok db1 =>
        simp only [hrel] at h
        cases hadj : adjust_balance bidder amount "bid_reserve" (some lid)
            MoneyField.reserved db1 with
        | error e => simp only [hadj] at h; cases h
        | ok db2 =>
          simp only [hadj] at h
          injection h with h
          rw [Prod.mk.injEq] at h
          obtain ⟨h5, h6⟩ := h
          refine ⟨lot, user, db1, db2, rfl, h1, by simpa using h2, by omega,
            rfl, by omega, rfl, hadj, h6.symm, ?_⟩
          rw [← h5, ← h6]

/-- C6: idempotent bidding.  With a non-empty request id unknown to the bid
table, a successful placeBid (or placeLotBid) followed by a second call with
the same parameters returns the same Bid (same id) from the same state — no
second charge — and the reserved column of the bidder has risen by exactly
the bid amount across the two calls combined. -/
theorem idempotent_bidding :
    (∀ (bidder aid : Nat) (amount : Int) (r : String) (now now2 : Nat)
       (db db1 : DB) (bid : BidRow),
      r ≠ "" →
      findBidByRequest db r = none →
      place_bid bidder aid amount (some r) now db = .ok (db1, bid) →
      place_bid bidder aid amount (some r) now2 db1 = .ok (db1, bid) ∧
      ∃ u u1, findUser db bidder = some u ∧ findUser db1 bidder = some u1 ∧
        u1.reserved = u.reserved + amount) ∧
    (∀ (bidder lid : Nat) (amount : Int) (r : String) (now now2 : Nat)
       (db db1 : DB) (bid : BidRow),
      r ≠ "" →
      findBidByRequest db r = none →
      place_lot_bid bidder lid amount (some r) now db = .ok (db1, bid) →
      place_lot_bid bidder lid amount (some r) now2 db1 = .ok (db1, bid) ∧
      ∃ u u1, findUser db bidder = some u ∧ findUser db1 bidder = some u1 ∧
        u1.reserved = u.reserved + amount) := by
  constructor
  · intro bidder aid amount r now now2 db db1 bid hr hmiss h
    have hfresh : idempotencyHit (some r) db = none := by
      simp only [idempotencyHit]
      rw [if_neg hr]
      exact hmiss
    obtain ⟨auction, user, dbR, db2, hfa, h1, h2, h3, hfu, h4, hrel, hadj,
      hbid, hdb1⟩ := place_bid_ok_char hfresh h
    obtain ⟨hbidsR, -, -, -, hfuR⟩ := bid_release_prev_ok_tables hrel
    obtain ⟨uR, hfuR2, -, -, -, hbids2, -⟩ := adjust_balance_ok_char hadj
    have hfuR3 : findUser dbR bidder = some user := by rw [hfuR]; exact hfu
    have hu2 : findUser db2 bidder =
        some { user with reserved := user.reserved + amount } :=
      adjust_balance_ok_findUser_res hadj hfuR3
    have hbids1 : db1.bids = db.bids ++ [bid] := by
      rw [hdb1]
      simp only
      rw [hbids2, hbidsR]
    have hhit1 : idempotencyHit (some r) db1 = some bid := by
      simp only [idempotencyHit]
      rw [if_neg hr]
      unfold findBidByRequest
      rw [hbids1]
      rw [find?_append_none hmiss]
      have : (bid.request_id == some r) = true := by rw [hbid]; simp
      simp [List.find?, this]
    constructor
    · unfold place_bid
      rw [hhit1]
    · refine ⟨user, { user with reserved := user.reserved + amount }, hfu, ?_, rfl⟩
      rw [hdb1]
      exact hu2
  · intro bidder lid amount r now now2 db db1 bid hr hmiss h
    have hfresh : idempotencyHit (some r) db = none := by
      simp only [idempotencyHit]
      rw [if_neg hr]
      exact hmiss
    obtain ⟨lot, user, dbR, db2, hfa, h1, h2, h3, hfu, h4, hrel, hadj,
      hbid, hdb1⟩ := place_lot_bid_ok_char hfresh h
    obtain ⟨hbidsR, -, -, -, hfuR⟩ := bid_release_prev_ok_tables hrel
    obtain ⟨uR, hfuR2, -, -, -, hbids2, -⟩ := adjust_balance_ok_char hadj
    have hfuR3 : findUser dbR bidder = some user := by rw [hfuR]; exact hfu
    have hu2 : findUser db2 bidder =
        some { user with reserved := user.reserved + amount } :=
      adjust_balance_ok_findUser_res hadj hfuR3
    have hbids1 : db1.bids = db.bids ++ [bid] := by
      rw [hdb1]
      simp only
      rw [hbids2, hbidsR]
    have hhit1 : idempotencyHit (some r) db1 = some bid := by
      simp only [idempotencyHit]
      rw [if_neg hr]
      unfold findBidByRequest
      rw [hbids1]
      rw [find?_append_none hmiss]
      have : (bid.request_id == some r) = true := by rw [hbid]; simp
      simp [List.find?, this]
    constructor
    · unfold place_lot_bid
      rw [hhit1]
    · refine ⟨user, { user with reserved := user.reserved + amount }, hfu, ?_, rfl⟩
      rw [hdb1]
      exact hu2

/-- Concrete state for the C6 witness: auction 3 (seller 1), bidder 2
holding 500.00. -/
def dbC6 : DB :=
  { users := [⟨1, 0, 0⟩, ⟨2, 50000, 0⟩],
    ledger := [⟨2, 50000, "deposit", none, MoneyField.balance⟩],
    auctions := [{ id := 3, item_id := 7, seller_id := 1, quantity := 1,
                   start_price := 100, current_price := 100, end_time := 1000,
                   status := .active, winner_id := none, created_at := 0 }],
    lots := [], bids := [], autobids := [], heroes := [], hero_perks := [],
    stash := [], redis := [], nextBid := 1, nextHero := 1 }

/-- The bid row produced by the C6 witness call. -/
def bidC6 : BidRow := ⟨1, some "abc-123", some 3, none, 2, 6000⟩

/-- The committed state after the first C6 witness call (reserved 60.00). -/
def dbC6r : DB :=
  { users := [⟨1, 0, 0⟩, ⟨2, 50000, 6000⟩],
    ledger := [⟨2, 50000, "deposit", none, MoneyField.balance⟩,
               ⟨2, 6000, "bid_reserve", some 3, MoneyField.reserved⟩],
    auctions := [{ id := 3, item_id := 7, seller_id := 1, quantity := 1,
                   start_price := 100, current_price := 6000, end_time := 1000,
                   status := .active, winner_id := some 2, created_at := 0 }],
    lots := [], bids := [bidC6], autobids := [], heroes := [], hero_perks := [],
    stash := [], redis := [], nextBid := 2, nextHero := 1 }

theorem idempotent_bidding_witness :
    place_bid 2 3 6000 (some "abc-123") 0 dbC6 = .ok (dbC6r, bidC6) ∧
    place_bid 2 3 6000 (some "abc-123") 99 dbC6r = .ok (dbC6r, bidC6) ∧
    findUser dbC6r 2 = some ⟨2, 50000, 6000⟩ := by
  have h : place_bid 2 3 6000 (some "abc-123") 0 dbC6 = .ok (dbC6r, bidC6) := by
    decide
  refine ⟨h, ?_, by decide⟩
  exact (idempotent_bidding.1 2 3 6000 "abc-123" 0 99 dbC6 dbC6r bidC6
    (by decide) (by decide) h).1

theorem findUser_setAuctionRow (db : DB) (aid : Nat) (a1 : AuctionRow) (v : Nat) :
    findUser (setAuctionRow db aid a1) v = findUser db v := rfl

theorem findUser_stashAdd (db : DB) (u i q v : Nat) :
    findUser (stashAdd db u i q) v = findUser db v := by
  unfold stashAdd findUser
  split <;> rfl

theorem findUser_lotCloseFinish (db : DB) (lid hid : Nat) (o : Option Nat)
    (l1 : LotRow) (v : Nat) :
    findUser (lotCloseFinish db lid hid o l1) v = findUser db v := rfl

theorem ledger_lotCloseFinish (db : DB) (lid hid : Nat) (o : Option Nat)
    (l1 : LotRow) : (lotCloseFinish db lid hid o l1).ledger = db.ledger := rfl

theorem stashQty_congr {db1 db : DB} (h : db1.stash = db.stash) (u i : Nat) :
    stashQty db1 u i = stashQty db u i := by
  unfold stashQty
  rw [h]

/-- The lock-or-insert increment adds exactly qty to the target stash
quantity. -/
theorem stashQty_stashAdd_self (db : DB) (u i q : Nat) :
    stashQty (stashAdd db u i q) u i = stashQty db u i + q := by
  unfold stashQty stashAdd
  by_cases hany : db.stash.any (fun s => s.user_id == u && s.item_id == i)
  · rw [if_pos hany]
    simp only
    rw [find?_map_pres _ _ _ (fun v => by
      by_cases hc : (v.user_id == u && v.item_id == i) = true
      · simp only [if_pos hc]
      · simp only [if_neg hc])]
    cases hf : db.stash.find? (fun s => s.user_id == u && s.item_id == i) with
    | some s =>
      have hps := List.find?_some hf
      simp only [Bool.and_eq_true, beq_iff_eq] at hps
      simp [hps.1, hps.2]
    | none =>
      exfalso
      rw [List.find?_eq_none] at hf
      obtain ⟨x, hx, hpx⟩ := List.any_eq_true.mp hany
      exact hf x hx hpx
  · rw [if_neg hany]
    simp only
    have hnone : db.stash.find? (fun s => s.user_id == u && s.item_id == i) = none := by
      rw [List.find?_eq_none]
      intro x hx hpx
      exact hany (List.any_eq_true.mpr ⟨x, hx, hpx⟩)
    rw [hnone, find?_append_none hnone]
    simp [List.find?]

theorem findHero_lotCloseFinish {db : DB} {hid : Nat} {h0 : HeroRow}
    (hf : findHero db hid = some h0) (lid : Nat) (o : Option Nat) (l1 : LotRow) :
    findHero (lotCloseFinish db lid hid o l1) hid =
      some { h0 with owner_id := o.getD h0.owner_id, is_on_auction := false } := by
  unfold lotCloseFinish findHero
  simp only
  rw [find?_map_pres _ _ _ (fun v => by
    by_cases hc : (v.id == hid) = true
    · simp only [if_pos hc]
    · simp only [if_neg hc])]
  unfold findHero at hf
  rw [hf]
  have hid0 : h0.id = hid := by simpa using List.find?_some hf
  simp [hid0]

/-- C1: close correctness for item auctions and hero lots.  For every
successful close of an ACTIVE target: with a highest bid of amount A the
winner's reserved drops by A, the seller's balance rises by A, the asset
moves to the winner (stash incremented by the quantity, or hero ownership
transferred with is_on_auction cleared), winner_id is the highest bidder
and the status becomes FINISHED; with no bid the users and the ledger are
untouched and the asset returns to the seller with status FINISHED. -/
theorem close_correctness :
    (∀ (aid : Nat) (db db' : DB) (a' a : AuctionRow) (hb : BidRow),
      close_auction aid db = .ok (db', a') →
      findAuction db aid = some a →
      a.status = AuctionStatus.active →
      highestAuctionBid db aid = some hb →
      (∃ w s w' s',
        findUser db hb.bidder_id = some w ∧ findUser db a.seller_id = some s ∧
        findUser db' hb.bidder_id = some w' ∧ findUser db' a.seller_id = some s' ∧
        w'.reserved = w.reserved - hb.amount ∧ s'.balance = s.balance + hb.amount) ∧
      stashQty db' hb.bidder_id a.item_id =
        stashQty db hb.bidder_id a.item_id + a.quantity ∧
      a'.winner_id = some hb.bidder_id ∧ a'.status = AuctionStatus.finished) ∧
    (∀ (aid : Nat) (db db' : DB) (a' a : AuctionRow),
      close_auction aid db = .ok (db', a') →
      findAuction db aid = some a →
      a.status = AuctionStatus.active →
      highestAuctionBid db aid = none →
      db'.users = db.users ∧ db'.ledger = db.ledger ∧
      stashQty db' a.seller_id a.item_id =
        stashQty db a.seller_id a.item_id + a.quantity ∧
      a'.status = AuctionStatus.finished) ∧
    (∀ (lid : Nat) (db db' : DB) (l' l : LotRow) (hb : BidRow),
      close_auction_lot lid db = .ok (db', l') →
      findLot db lid = some l →
      l.status = AuctionStatus.active →
      highestLotBid db lid = some hb →
      (∃ w s w' s',
        findUser db hb.bidder_id = some w ∧ findUser db l.seller_id = some s ∧
        findUser db' hb.bidder_id = some w' ∧ findUser db' l.seller_id = some s' ∧
        w'.reserved = w.reserved - hb.amount ∧ s'.balance = s.balance + hb.amount) ∧
      (∃ h0 h1,
        findHero db l.hero_id = some h0 ∧ findHero db' l.hero_id = some h1 ∧
        h1.owner_id = hb.bidder_id ∧ h1.is_on_auction = false) ∧
      l'.winner_id = some hb.bidder_id ∧ l'.status = AuctionStatus.finished) ∧
    (∀ (lid : Nat) (db db' : DB) (l' l : LotRow),
      close_auction_lot lid db = .ok (db', l') →
      findLot db lid = some l →
      l.status = AuctionStatus.active →
      highestLotBid db lid = none →
      db'.users = db.users ∧ db'.ledger = db.ledger ∧
      (∃ h0 h1,
        findHero db l.hero_id = some h0 ∧ findHero db' l.hero_id = some h1 ∧
        h1.owner_id = h0.owner_id ∧ h1.is_on_auction = false) ∧
      l'.status = AuctionStatus.finished) := by
  refine ⟨?_, ?_, ?_, ?_⟩
  · -- item auction, winning bid
    intro aid db db' a' a hb h hfa hst hhb
    obtain ⟨a0, hfa0, hcase⟩ := close_auction_ok_char h
    rw [hfa] at hfa0
    injection hfa0 with hfa0
    subst hfa0
    rcases hcase with ⟨hbad, -, -⟩ | ⟨-, hcase⟩
    · exact absurd hst hbad
    rcases hcase with ⟨hb0, db1, db2, hhb0, ha', hadj1, hadj2, hdb'⟩ | ⟨hnone, -, -⟩
    swap
    · rw [hhb] at hnone; cases hnone
    rw [hhb] at hhb0
    injection hhb0 with hhb0
    subst hhb0
    obtain ⟨w, hwSt, -⟩ := adjust_balance_ok_char hadj1
    obtain ⟨s1, hs1, -⟩ := adjust_balance_ok_char hadj2
    obtain ⟨-, -, -, -, -, -, -, -, -, hstash1, -⟩ := adjust_balance_ok_char hadj1
    obtain ⟨-, -, -, -, -, -, -, -, -, hstash2, -⟩ := adjust_balance_ok_char hadj2
    have hw : findUser db hb.bidder_id = some w := by
      rw [← findUser_setAuctionRow db aid a' hb.bidder_id]
      exact hwSt
    have hwres : findUser db1 hb.bidder_id =
        some { w with reserved := w.reserved + -hb.amount } :=
      adjust_balance_ok_findUser_res hadj1 hwSt
    have hstq : stashQty db' hb.bidder_id a.item_id =
        stashQty db hb.bidder_id a.item_id + a.quantity := by
      rw [hdb', stashQty_stashAdd_self]
      have : db2.stash = db.stash := by
        rw [hstash2, hstash1]; rfl
      rw [stashQty_congr this]
    refine ⟨?_, hstq, by rw [ha'], by rw [ha']⟩
    by_cases hws : a.seller_id = hb.bidder_id
    · have hs1w : findUser db1 a.seller_id =
          some { w with reserved := w.reserved + -hb.amount } := by
        rw [hws]; exact hwres
      have hfin : findUser db2 a.seller_id =
          some { { w with reserved := w.reserved + -hb.amount } with
                 balance := w.balance + hb.amount } :=
        adjust_balance_ok_findUser_bal hadj2 hs1w
      have hfin' : findUser db2 hb.bidder_id =
          some { { w with reserved := w.reserved + -hb.amount } with
                 balance := w.balance + hb.amount } := by
        rw [← hws]; exact hfin
      refine ⟨w, w, { { w with reserved := w.reserved + -hb.amount } with
                      balance := w.balance + hb.amount },
                    { { w with reserved := w.reserved + -hb.amount } with
                      balance := w.balance + hb.amount },
        hw, by rw [hws]; exact hw, ?_, ?_, ?_, ?_⟩
      · rw [hdb', findUser_stashAdd]; exact hfin'
      · rw [hdb', findUser_stashAdd]; exact hfin
      · show w.reserved + -hb.amount = w.reserved - hb.amount
        omega
      · rfl
    · have hs1' : findUser db1 a.seller_id =
          findUser (setAuctionRow db aid a') a.seller_id :=
        adjust_balance_ok_findUser_other hadj1 (fun hc => hws hc)
      have hs : findUser db a.seller_id = some s1 := by
        rw [← findUser_setAuctionRow db aid a' a.seller_id, ← hs1', hs1]
      have hw2 : findUser db2 hb.bidder_id =
          some { w with reserved := w.reserved + -hb.amount } := by
        rw [adjust_balance_ok_findUser_other hadj2 (fun hc => hws hc.symm)]
        exact hwres
      have hs2 : findUser db2 a.seller_id =
          some { s1 with balance := s1.balance + hb.amount } :=
        adjust_balance_ok_findUser_bal hadj2 hs1
      refine ⟨w, s1, { w with reserved := w.reserved + -hb.amount },
        { s1 with balance := s1.balance + hb.amount }, hw, hs, ?_, ?_, ?_, rfl⟩
      · rw [hdb', findUser_stashAdd]; exact hw2
      · rw [hdb', findUser_stashAdd]; exact hs2
      · show w.reserved + -hb.amount = w.reserved - hb.amount
        omega
  · -- item auction, no bids
    intro aid db db' a' a h hfa hst hnone
    obtain ⟨a0, hfa0, hcase⟩ := close_auction_ok_char h
    rw [hfa] at hfa0
    injection hfa0 with hfa0
    subst hfa0
    rcases hcase with ⟨hbad, -, -⟩ | ⟨-, hcase⟩
    · exact absurd hst hbad
    rcases hcase with ⟨hb0, db1, db2, hhb0, -⟩ | ⟨-, ha', hdb'⟩
    · rw [hnone] at hhb0; cases hhb0
    refine ⟨?_, ?_, ?_, by rw [ha']⟩
    · rw [hdb', stashAdd_users]; rfl
    · rw [hdb', stashAdd_ledger]; rfl
    · rw [hdb', stashQty_stashAdd_self]
      rw [stashQty_congr (show (setAuctionRow db aid a').stash = db.stash from rfl)]
  · -- hero lot, winning bid
    intro lid db db' l' l hb h hfl hst hhb
    obtain ⟨l0, hfl0, hcase⟩ := close_auction_lot_ok_char h
    rw [hfl] at hfl0
    injection hfl0 with hfl0
    subst hfl0
    rcases hcase with ⟨hbad, -, -⟩ | ⟨-, hhero, hcase⟩
    · exact absurd hst hbad
    rcases hcase with ⟨hb0, db1, db2, hhb0, hl', hadj1, hadj2, hdb'⟩ | ⟨hnone, -, -⟩
    swap
    · rw [hhb] at hnone; cases hnone
    rw [hhb] at hhb0
    injection hhb0 with hhb0
    subst hhb0
    obtain ⟨w, hw, -⟩ := adjust_balance_ok_char hadj1
    obtain ⟨s1, hs1, -⟩ := adjust_balance_ok_char hadj2
    obtain ⟨-, -, -, -, -, -, -, hheroes1, -⟩ := adjust_balance_ok_char hadj1
    obtain ⟨-, -, -, -, -, -, -, hheroes2, -⟩ := adjust_balance_ok_char hadj2
    cases hfh : findHero db l.hero_id with
    | none => rw [hfh] at hhero; cases hhero
    | some h0 =>
      have hwres : findUser db1 hb.bidder_id =
          some { w with reserved := w.reserved + -hb.amount } :=
        adjust_balance_ok_findUser_res hadj1 hw
      have hfh2 : findHero db2 l.hero_id = some h0 := by
        unfold findHero
        rw [hheroes2, hheroes1]
        exact hfh
      have hhero' : findHero db' l.hero_id =
          some { h0 with owner_id := hb.bidder_id, is_on_auction := false } := by
        rw [hdb']
        have := findHero_lotCloseFinish hfh2 lid (some hb.bidder_id) l'
        simpa using this
      refine ⟨?_, ⟨h0, _, rfl, hhero', rfl, rfl⟩, by rw [hl'], by rw [hl']⟩
      by_cases hws : l.seller_id = hb.bidder_id
      · have hs1w : findUser db1 l.seller_id =
            some { w with reserved := w.reserved + -hb.amount } := by
          rw [hws]; exact hwres
        have hfin : findUser db2 l.seller_id =
            some { { w with reserved := w.reserved + -hb.amount } with
                   balance := w.balance + hb.amount } :=
          adjust_balance_ok_findUser_bal hadj2 hs1w
        have hfin' : findUser db2 hb.bidder_id =
            some { { w with reserved := w.reserved + -hb.amount } with
                   balance := w.balance + hb.amount } := by
          rw [← hws]; exact hfin
        refine ⟨w, w, { { w with reserved := w.reserved + -hb.amount } with
                        balance := w.balance + hb.amount },
                      { { w with reserved := w.reserved + -hb.amount } with
                        balance := w.balance + hb.amount },
          hw, by rw [hws]; exact hw, ?_, ?_, ?_, ?_⟩
        · rw [hdb', findUser_lotCloseFinish]; exact hfin'
        · rw [hdb', findUser_lotCloseFinish]; exact hfin
        · show w.reserved + -hb.amount = w.reserved - hb.amount
          omega
        · rfl
      · have hs : findUser db l.seller_id = some s1 := by
          rw [← adjust_balance_ok_findUser_other hadj1 (fun hc => hws hc), hs1]
        have hw2 : findUser db2 hb.bidder_id =
            some { w with reserved := w.reserved + -hb.amount } := by
          rw [adjust_balance_ok_findUser_other hadj2 (fun hc => hws hc.symm)]
          exact hwres
        have hs2 : findUser db2 l.seller_id =
            some { s1 with balance := s1.balance + hb.amount } :=
          adjust_balance_ok_findUser_bal hadj2 hs1
        refine ⟨w, s1, { w with reserved := w.reserved + -hb.amount },
          { s1 with balance := s1.balance + hb.amount }, hw, hs, ?_, ?_, ?_, rfl⟩
        · rw [hdb', findUser_lotCloseFinish]; exact hw2
        · rw [hdb', findUser_lotCloseFinish]; exact hs2
        · show w.reserved + -hb.amount = w.reserved - hb.amount
          omega
  · -- hero lot, no bids
    intro lid db db' l' l h hfl hst hnone
    obtain ⟨l0, hfl0, hcase⟩ := close_auction_lot_ok_char h
    rw [hfl] at hfl0
    injection hfl0 with hfl0
    subst hfl0
    rcases hcase with ⟨hbad, -, -⟩ | ⟨-, hhero, hcase⟩
    · exact absurd hst hbad
    rcases hcase with ⟨hb0, db1, db2, hhb0, -⟩ | ⟨-, hl', hdb'⟩
    · rw [hnone] at hhb0; cases hhb0
    cases hfh : findHero db l.hero_id with
    | none => rw [hfh] at hhero; cases hhero
    | some h0 =>
      have hhero' : findHero db' l.hero_id =
          some { h0 with owner_id := h0.owner_id, is_on_auction := false } := by
        rw [hdb']
        have := findHero_lotCloseFinish hfh lid none l'
        simpa using this
      exact ⟨by rw [hdb']; rfl, by rw [hdb']; rfl,
        ⟨h0, _, rfl, hhero', rfl, rfl⟩, by rw [hl']⟩

/-- C1 witness scenario, item auction: auction 1 (seller 1, item 7, qty 3)
with a highest bid of 150.00 by user 2. -/
def aC1a : AuctionRow :=
  { id := 1, item_id := 7, seller_id := 1, quantity := 3, start_price := 10000,
    current_price := 15000, end_time := 100, status := .active,
    winner_id := some 2, created_at := 0 }

def bidC1a : BidRow := ⟨1, none, some 1, none, 2, 15000⟩

def dbC1a : DB :=
  { users := [⟨1, 100000, 0⟩, ⟨2, 200000, 15000⟩],
    ledger := [⟨2, 15000, "bid_reserve", some 1, MoneyField.reserved⟩],
    auctions := [aC1a], lots := [], bids := [bidC1a], autobids := [],
    heroes := [], hero_perks := [], stash := [⟨1, 7, 2⟩], redis := [],
    nextBid := 2, nextHero := 1 }

def aC1ar : AuctionRow := { aC1a with status := .finished }

def dbC1ar : DB :=
  { users := [⟨1, 115000, 0⟩, ⟨2, 200000, 0⟩],
    ledger := [⟨2, 15000, "bid_reserve", some 1, MoneyField.reserved⟩,
               ⟨2, -15000, "auction_release_reserved", some 1, MoneyField.reserved⟩,
               ⟨1, 15000, "auction_payout", some 1, MoneyField.balance⟩],
    auctions := [aC1ar], lots := [], bids := [bidC1a], autobids := [],
    heroes := [], hero_perks := [], stash := [⟨1, 7, 2⟩, ⟨2, 7, 3⟩],
    redis := [], nextBid := 2, nextHero := 1 }

/-- C1 witness scenario, hero lot: lot 1 (seller 1, hero 9) with a highest
bid of 600.00 by user 2. -/
def lC1b : LotRow :=
  { id := 1, hero_id := 9, seller_id := 1, starting_price := 50000,
    current_price := 60000, buyout_price := none, end_time := 100,
    status := .active, winner_id := some 2 }

def bidC1b : BidRow := ⟨1, none, none, some 1, 2, 60000⟩

def dbC1b : DB :=
  { users := [⟨1, 0, 0⟩, ⟨2, 100000, 60000⟩],
    ledger := [⟨2, 60000, "bid_reserve", some 1, MoneyField.reserved⟩],
    auctions := [], lots := [lC1b], bids := [bidC1b], autobids := [],
    heroes := [⟨9, 1, 1, false, false, true, false, false⟩],
    hero_perks := [], stash := [], redis := [], nextBid := 2, nextHero := 10 }

def lC1br : LotRow := { lC1b with status := .finished }

def dbC1br : DB :=
  { users := [⟨1, 60000, 0⟩, ⟨2, 100000, 0⟩],
    ledger := [⟨2, 60000, "bid_reserve", some 1, MoneyField.reserved⟩,
               ⟨2, -60000, "auction_release_reserved", some 1, MoneyField.reserved⟩,
               ⟨1, 60000, "auction_payout", some 1, MoneyField.balance⟩],
    auctions := [], lots := [lC1br], bids := [bidC1b], autobids := [],
    heroes := [⟨9, 2, 1, false, false, false, false, false⟩],
    hero_perks := [], stash := [], redis := [], nextBid := 2, nextHero := 10 }

theorem close_correctness_witness :
    close_auction 1 dbC1a = .ok (dbC1ar, aC1ar) ∧
    stashQty dbC1ar 2 7 = stashQty dbC1a 2 7 + 3 ∧
    close_auction_lot 1 dbC1b = .ok (dbC1br, lC1br) ∧
    (∃ h0 h1, findHero dbC1b 9 = some h0 ∧ findHero dbC1br 9 = some h1 ∧
      h1.owner_id = 2 ∧ h1.is_on_auction = false) := by
  have ha : close_auction 1 dbC1a = .ok (dbC1ar, aC1ar) := by decide
  have hbl : close_auction_lot 1 dbC1b = .ok (dbC1br, lC1br) := by decide
  have k1 := close_correctness.1 1 dbC1a dbC1ar aC1ar aC1a bidC1a ha
    (by decide) (by decide) (by decide)
  have k3 := close_correctness.2.2.1 1 dbC1b dbC1br lC1br lC1b bidC1b hbl
    (by decide) (by decide) (by decide)
  exact ⟨ha, k1.2.1, hbl, k3.2.1⟩

/-- Under unique auction ids the plain lookup returns the row found by the
status-filtered lookup. -/
theorem findAuction_of_findActive {db : DB} {aid : Nat} {a : AuctionRow}
    (hnd : (db.auctions.map (fun x => x.id)).Nodup)
    (h : findActiveAuction db aid = some a) : findAuction db aid = some a := by
  unfold findActiveAuction at h
  have hmem : a ∈ db.auctions := List.mem_of_find?_eq_some h
  have hp : a.id = aid ∧ a.status = AuctionStatus.active := by
    have := List.find?_some h
    simpa using this
  unfold findAuction
  refine find?_unique hmem (by simp [hp.1]) ?_
  intro y hy hpy
  simp only [beq_iff_eq] at hpy
  exact List.inj_on_of_nodup_map hnd hy hmem (by rw [hpy, hp.1])


theorem bidAuctionUpd_pres_active (aid : Nat) (amount : Int) (bidder : Nat)
    (aid2 : Nat) (v : AuctionRow) :
    ((bidAuctionUpd aid amount bidder v).id == aid2 &&
      (bidAuctionUpd aid amount bidder v).status == AuctionStatus.active) =
    (v.id == aid2 && v.status == AuctionStatus.active) := by
  unfold bidAuctionUpd
  split <;> rfl

theorem bidAuctionUpd_pres_id (aid : Nat) (amount : Int) (bidder : Nat)
    (aid2 : Nat) (v : AuctionRow) :
    ((bidAuctionUpd aid amount bidder v).id == aid2) = (v.id == aid2) := by
  unfold bidAuctionUpd
  split <;> rfl

theorem maxBid_two (b1 b2 : BidRow) (h : b1.amount < b2.amount) :
    maxBid none [b1, b2] = some b2 := by
  unfold maxBid maxBid maxBid
  rw [if_pos h]

/-- Under unique lot ids the plain lookup returns the row found by the
status-filtered lookup. -/
theorem findLot_of_findActiveLot {db : DB} {lid : Nat} {l : LotRow}
    (hnd : (db.lots.map (fun x => x.id)).Nodup)
    (h : findActiveLot db lid = some l) : findLot db lid = some l := by
  unfold findActiveLot at h
  have hmem : l ∈ db.lots := List.mem_of_find?_eq_some h
  have hp : l.id = lid ∧ l.status = AuctionStatus.active := by
    have := List.find?_some h
    simpa using this
  unfold findLot
  refine find?_unique hmem (by simp [hp.1]) ?_
  intro y hy hpy
  simp only [beq_iff_eq] at hpy
  exact List.inj_on_of_nodup_map hnd hy hmem (by rw [hpy, hp.1])

theorem bidLotUpd_pres_active (lid : Nat) (amount : Int) (bidder : Nat)
    (lid2 : Nat) (v : LotRow) :
    ((bidLotUpd lid amount bidder v).id == lid2 &&
      (bidLotUpd lid amount bidder v).status == AuctionStatus.active) =
    (v.id == lid2 && v.status == AuctionStatus.active) := by
  unfold bidLotUpd
  split <;> rfl

theorem bidLotUpd_pres_id (lid : Nat) (amount : Int) (bidder : Nat)
    (lid2 : Nat) (v : LotRow) :
    ((bidLotUpd lid amount bidder v).id == lid2) = (v.id == lid2) := by
  unfold bidLotUpd
  split <;> rfl

/-- On the targeted row the place_bid update writes the new price and
winner. -/
theorem bidAuctionUpd_self (aid : Nat) (x : Int) (w : Nat) (a : AuctionRow)
    (h : (a.id == aid) = true) :
    bidAuctionUpd aid x w a =
      { a with current_price := x, winner_id := some w } := by
  unfold bidAuctionUpd
  rw [if_pos h]

/-- On the targeted row the place_lot_bid update writes the new price and
winner. -/
theorem bidLotUpd_self (lid : Nat) (x : Int) (w : Nat) (l : LotRow)
    (h : (l.id == lid) = true) :
    bidLotUpd lid x w l =
      { l with current_price := x, winner_id := some w } := by
  unfold bidLotUpd
  rw [if_pos h]

/-- C10: self-overbid leaves a residual reservation.  When the release step
never fires because both bids come from the same user (bid.py releases the
previous highest bid only when it belongs to a DIFFERENT user) and close
releases only the single highest amount, a user who places two successive
bids of a1 then a2 on a previously unbid auction (or lot) and wins at close
ends with reserved raised by exactly a1 — the earlier bid amount — above the
starting value, a positive leak whenever a1 > 0. -/
theorem self_overbid_residual_reservation :
    (∀ (u aid : Nat) (a1 a2 : Int) (now1 now2 : Nat)
       (db0 db1 db2 db3 : DB) (b1 b2 : BidRow) (a3 : AuctionRow),
      (db0.auctions.map (fun x => x.id)).Nodup →
      db0.bids.filter (fun b => b.auction_id == some aid) = [] →
      place_bid u aid a1 none now1 db0 = .ok (db1, b1) →
      place_bid u aid a2 none now2 db1 = .ok (db2, b2) →
      close_auction aid db2 = .ok (db3, a3) →
      a3.winner_id = some u ∧
      ∃ r0 r3, findUser db0 u = some r0 ∧ findUser db3 u = some r3 ∧
        r3.reserved = r0.reserved + a1 ∧ (0 < a1 → r0.reserved < r3.reserved)) ∧
    (∀ (u lid : Nat) (a1 a2 : Int) (now1 now2 : Nat)
       (db0 db1 db2 db3 : DB) (b1 b2 : BidRow) (l3 : LotRow),
      (db0.lots.map (fun x => x.id)).Nodup →
      db0.bids.filter (fun b => b.lot_id == some lid) = [] →
      place_lot_bid u lid a1 none now1 db0 = .ok (db1, b1) →
      place_lot_bid u lid a2 none now2 db1 = .ok (db2, b2) →
      close_auction_lot lid db2 = .ok (db3, l3) →
      l3.winner_id = some u ∧
      ∃ r0 r3, findUser db0 u = some r0 ∧ findUser db3 u = some r3 ∧
        r3.reserved = r0.reserved + a1 ∧ (0 < a1 → r0.reserved < r3.reserved)) := by
  constructor
  · intro u aid a1 a2 now1 now2 db0 db1 db2 db3 b1 b2 a3 hnd hempty h1 h2 h3
    obtain ⟨A0, u0, dbR1, dbA1, hfa0, -, hsell0, -, hfu0, -, hrel1, hadj1, hb1eq, hdb1⟩ :=
      place_bid_ok_char (by rfl) h1
    have hA0p : A0.id = aid ∧ A0.status = AuctionStatus.active := by
      have h0 := hfa0
      unfold findActiveAuction at h0
      have := List.find?_some h0
      simpa using this
    have hhigh0 : highestAuctionBid db0 aid = none := by
      unfold highestAuctionBid
      rw [hempty]
      rfl
    rw [hhigh0] at hrel1
    simp only [bid_release_prev] at hrel1
    injection hrel1 with hR1
    subst hR1
    have hfuA1 : findUser dbA1 u = some { u0 with reserved := u0.reserved + a1 } :=
      adjust_balance_ok_findUser_res hadj1 hfu0
    obtain ⟨-, -, -, hauctA1, -, hbidsA1, -, -, -, -, -, -, -, -⟩ :=
      adjust_balance_ok_char hadj1
    subst hb1eq
    have hbids1 : db1.bids =
        db0.bids ++ [(⟨dbA1.nextBid, none, some aid, none, u, a1⟩ : BidRow)] := by
      rw [hdb1]
      dsimp only
      rw [hbidsA1]
    have hauct1 : db1.auctions = db0.auctions.map (bidAuctionUpd aid a1 u) := by
      rw [hdb1]
      dsimp only
      rw [hauctA1]
    have hfu1v : findUser db1 u = some { u0 with reserved := u0.reserved + a1 } := by
      unfold findUser
      rw [hdb1]
      dsimp only
      exact hfuA1
    have hfa1c : findActiveAuction db1 aid =
        some { A0 with current_price := a1, winner_id := some u } := by
      unfold findActiveAuction
      rw [hauct1, find?_map_pres _ _ _ (fun v => bidAuctionUpd_pres_active aid a1 u aid v)]
      have h0 := hfa0
      unfold findActiveAuction at h0
      rw [h0]
      show some (bidAuctionUpd aid a1 u A0) = _
      rw [bidAuctionUpd_self aid a1 u A0 (by simp [hA0p.1])]
    obtain ⟨A1, -, dbR2, dbA2, hfa1, -, -, hlow1, -, -, hrel2, hadj2, hb2eq, hdb2⟩ :=
      place_bid_ok_char (by rfl) h2
    rw [hfa1c] at hfa1
    injection hfa1 with hA1
    subst hA1
    have ha12 : a1 < a2 := by simpa using hlow1
    have hfilter1 : db1.bids.filter (fun b => b.auction_id == some aid) =
        [(⟨dbA1.nextBid, none, some aid, none, u, a1⟩ : BidRow)] := by
      rw [hbids1, List.filter_append, hempty]
      simp
    have hhigh1 : highestAuctionBid db1 aid =
        some (⟨dbA1.nextBid, none, some aid, none, u, a1⟩ : BidRow) := by
      unfold highestAuctionBid
      rw [hfilter1]
      rfl
    rw [hhigh1] at hrel2
    simp only [bid_release_prev] at hrel2
    rw [if_neg (by simp)] at hrel2
    injection hrel2 with hR2
    subst hR2
    have hfuA2 : findUser dbA2 u =
        some { u0 with reserved := u0.reserved + a1 + a2 } :=
      adjust_balance_ok_findUser_res hadj2 hfu1v
    obtain ⟨-, -, -, hauctA2, -, hbidsA2, -, -, -, -, -, -, -, -⟩ :=
      adjust_balance_ok_char hadj2
    subst hb2eq
    have hbids2 : db2.bids = db0.bids ++
        [(⟨dbA1.nextBid, none, some aid, none, u, a1⟩ : BidRow),
         (⟨dbA2.nextBid, none, some aid, none, u, a2⟩ : BidRow)] := by
      rw [hdb2]
      dsimp only
      rw [hbidsA2, hbids1]
      simp
    have hauct2 : db2.auctions =
        (db0.auctions.map (bidAuctionUpd aid a1 u)).map (bidAuctionUpd aid a2 u) := by
      rw [hdb2]
      dsimp only
      rw [hauctA2, hauct1]
    have hfu2v : findUser db2 u =
        some { u0 with reserved := u0.reserved + a1 + a2 } := by
      unfold findUser
      rw [hdb2]
      dsimp only
      exact hfuA2
    obtain ⟨A2, hfa2, hcase⟩ := close_auction_ok_char h3
    have hfa2c : findAuction db2 aid =
        some { A0 with current_price := a2, winner_id := some u } := by
      unfold findAuction
      rw [hauct2,
        find?_map_pres _ _ _ (fun v => bidAuctionUpd_pres_id aid a2 u aid v),
        find?_map_pres _ _ _ (fun v => bidAuctionUpd_pres_id aid a1 u aid v)]
      have h0 := findAuction_of_findActive hnd hfa0
      unfold findAuction at h0
      rw [h0]
      show some (bidAuctionUpd aid a2 u (bidAuctionUpd aid a1 u A0)) = _
      rw [bidAuctionUpd_self aid a1 u A0 (by simp [hA0p.1]),
        bidAuctionUpd_self aid a2 u
          { A0 with current_price := a1, winner_id := some u } (by simp [hA0p.1])]
    rw [hfa2c] at hfa2
    injection hfa2 with hA2
    subst hA2
    have hfilter2 : db2.bids.filter (fun b => b.auction_id == some aid) =
        [(⟨dbA1.nextBid, none, some aid, none, u, a1⟩ : BidRow),
         (⟨dbA2.nextBid, none, some aid, none, u, a2⟩ : BidRow)] := by
      rw [hbids2, List.filter_append, hempty]
      simp
    have hhigh2 : highestAuctionBid db2 aid =
        some (⟨dbA2.nextBid, none, some aid, none, u, a2⟩ : BidRow) := by
      unfold highestAuctionBid
      rw [hfilter2]
      exact maxBid_two _ _ ha12
    rcases hcase with ⟨hne, -, -⟩ | ⟨-, hwin | ⟨hnone, -, -⟩⟩
    · exact absurd hA0p.2 (by simpa using hne)
    · obtain ⟨hb, dbc1, dbc2, hhb, ha3eq, hadjC1, hadjC2, hdb3⟩ := hwin
      rw [hhigh2] at hhb
      injection hhb with hhb2
      subst hhb2
      have hfuS : findUser (setAuctionRow db2 aid a3) u =
          some { u0 with reserved := u0.reserved + a1 + a2 } := by
        rw [findUser_setAuctionRow]
        exact hfu2v
      have hfuc1 : findUser dbc1 u =
          some { u0 with reserved := u0.reserved + a1 + a2 + -a2 } :=
        adjust_balance_ok_findUser_res hadjC1 hfuS
      have hsne :
          u ≠ ({ A0 with current_price := a2, winner_id := some u } : AuctionRow).seller_id := by
        have h0 : A0.seller_id ≠ u := by simpa using hsell0
        simpa using Ne.symm h0
      have hfuc2 : findUser dbc2 u =
          some { u0 with reserved := u0.reserved + a1 + a2 + -a2 } := by
        rw [adjust_balance_ok_findUser_other hadjC2 hsne]
        exact hfuc1
      have hfu3 : findUser db3 u =
          some { u0 with reserved := u0.reserved + a1 + a2 + -a2 } := by
        rw [hdb3, findUser_stashAdd]
        exact hfuc2
      refine ⟨by rw [ha3eq], u0,
        { u0 with reserved := u0.reserved + a1 + a2 + -a2 }, hfu0, hfu3, ?_, ?_⟩
      · show u0.reserved + a1 + a2 + -a2 = u0.reserved + a1
        omega
      · intro hpos
        show u0.reserved < u0.reserved + a1 + a2 + -a2
        omega
    · rw [hhigh2] at hnone
      cases hnone
  · intro u lid a1 a2 now1 now2 db0 db1 db2 db3 b1 b2 l3 hnd hempty h1 h2 h3
    obtain ⟨L0, u0, dbR1, dbA1, hfa0, -, hsell0, -, hfu0, -, hrel1, hadj1, hb1eq, hdb1⟩ :=
      place_lot_bid_ok_char (by rfl) h1
    have hL0p : L0.id = lid ∧ L0.status = AuctionStatus.active := by
      have h0 := hfa0
      unfold findActiveLot at h0
      have := List.find?_some h0
      simpa using this
    have hhigh0 : highestLotBid db0 lid = none := by
      unfold highestLotBid
      rw [hempty]
      rfl
    rw [hhigh0] at hrel1
    simp only [bid_release_prev] at hrel1
    injection hrel1 with hR1
    subst hR1
    have hfuA1 : findUser dbA1 u = some { u0 with reserved := u0.reserved + a1 } :=
      adjust_balance_ok_findUser_res hadj1 hfu0
    obtain ⟨-, -, -, -, hlotsA1, hbidsA1, -, -, -, -, -, -, -, -⟩ :=
      adjust_balance_ok_char hadj1
    subst hb1eq
    have hbids1 : db1.bids =
        db0.bids ++ [(⟨dbA1.nextBid, none, none, some lid, u, a1⟩ : BidRow)] := by
      rw [hdb1]
      dsimp only
      rw [hbidsA1]
    have hlots1 : db1.lots = db0.lots.map (bidLotUpd lid a1 u) := by
      rw [hdb1]
      dsimp only
      rw [hlotsA1]
    have hfu1v : findUser db1 u = some { u0 with reserved := u0.reserved + a1 } := by
      unfold findUser
      rw [hdb1]
      dsimp only
      exact hfuA1
    have hfa1c : findActiveLot db1 lid =
        some { L0 with current_price := a1, winner_id := some u } := by
      unfold findActiveLot
      rw [hlots1, find?_map_pres _ _ _ (fun v => bidLotUpd_pres_active lid a1 u lid v)]
      have h0 := hfa0
      unfold findActiveLot at h0
      rw [h0]
      show some (bidLotUpd lid a1 u L0) = _
      rw [bidLotUpd_self lid a1 u L0 (by simp [hL0p.1])]
    obtain ⟨L1, -, dbR2, dbA2, hfa1, -, -, hlow1, -, -, hrel2, hadj2, hb2eq, hdb2⟩ :=
      place_lot_bid_ok_char (by rfl) h2
    rw [hfa1c] at hfa1
    injection hfa1 with hL1
    subst hL1
    have ha12 : a1 < a2 := by simpa using hlow1
    have hfilter1 : db1.bids.filter (fun b => b.lot_id == some lid) =
        [(⟨dbA1.nextBid, none, none, some lid, u, a1⟩ : BidRow)] := by
      rw [hbids1, List.filter_append, hempty]
      simp
    have hhigh1 : highestLotBid db1 lid =
        some (⟨dbA1.nextBid, none, none, some lid, u, a1⟩ : BidRow) := by
      unfold highestLotBid
      rw [hfilter1]
      rfl
    rw [hhigh1] at hrel2
    simp only [bid_release_prev] at hrel2
    rw [if_neg (by simp)] at hrel2
    injection hrel2 with hR2
    subst hR2
    have hfuA2 : findUser dbA2 u =
        some { u0 with reserved := u0.reserved + a1 + a2 } :=
      adjust_balance_ok_findUser_res hadj2 hfu1v
    obtain ⟨-, -, -, -, hlotsA2, hbidsA2, -, -, -, -, -, -, -, -⟩ :=
      adjust_balance_ok_char hadj2
    subst hb2eq
    have hbids2 : db2.bids = db0.bids ++
        [(⟨dbA1.nextBid, none, none, some lid, u, a1⟩ : BidRow),
         (⟨dbA2.nextBid, none, none, some lid, u, a2⟩ : BidRow)] := by
      rw [hdb2]
      dsimp only
      rw [hbidsA2, hbids1]
      simp
    have hlots2 : db2.lots =
        (db0.lots.map (bidLotUpd lid a1 u)).map (bidLotUpd lid a2 u) := by
      rw [hdb2]
      dsimp only
      rw [hlotsA2, hlots1]
    have hfu2v : findUser db2 u =
        some { u0 with reserved := u0.reserved + a1 + a2 } := by
      unfold findUser
      rw [hdb2]
      dsimp only
      exact hfuA2
    obtain ⟨L2, hfl2, hcase⟩ := close_auction_lot_ok_char h3
    have hfl2c : findLot db2 lid =
        some { L0 with current_price := a2, winner_id := some u } := by
      unfold findLot
      rw [hlots2,
        find?_map_pres _ _ _ (fun v => bidLotUpd_pres_id lid a2 u lid v),
        find?_map_pres _ _ _ (fun v => bidLotUpd_pres_id lid a1 u lid v)]
      have h0 := findLot_of_findActiveLot hnd hfa0
      unfold findLot at h0
      rw [h0]
      show some (bidLotUpd lid a2 u (bidLotUpd lid a1 u L0)) = _
      rw [bidLotUpd_self lid a1 u L0 (by simp [hL0p.1]),
        bidLotUpd_self lid a2 u
          { L0 with current_price := a1, winner_id := some u } (by simp [hL0p.1])]
    rw [hfl2c] at hfl2
    injection hfl2 with hL2
    subst hL2
    have hfilter2 : db2.bids.filter (fun b => b.lot_id == some lid) =
        [(⟨dbA1.nextBid, none, none, some lid, u, a1⟩ : BidRow),
         (⟨dbA2.nextBid, none, none, some lid, u, a2⟩ : BidRow)] := by
      rw [hbids2, List.filter_append, hempty]
      simp
    have hhigh2 : highestLotBid db2 lid =
        some (⟨dbA2.nextBid, none, none, some lid, u, a2⟩ : BidRow) := by
      unfold highestLotBid
      rw [hfilter2]
      exact maxBid_two _ _ ha12
    rcases hcase with ⟨hne, -, -⟩ | ⟨-, -, hwin | ⟨hnone, -, -⟩⟩
    · exact absurd hL0p.2 (by simpa using hne)
    · obtain ⟨hb, dbc1, dbc2, hhb, hl3eq, hadjC1, hadjC2, hdb3⟩ := hwin
      rw [hhigh2] at hhb
      injection hhb with hhb2
      subst hhb2
      have hfuc1 : findUser dbc1 u =
          some { u0 with reserved := u0.reserved + a1 + a2 + -a2 } :=
        adjust_balance_ok_findUser_res hadjC1 hfu2v
      have hsne :
          u ≠ ({ L0 with current_price := a2, winner_id := some u } : LotRow).seller_id := by
        have h0 : L0.seller_id ≠ u := by simpa using hsell0
        simpa using Ne.symm h0
      have hfuc2 : findUser dbc2 u =
          some { u0 with reserved := u0.reserved + a1 + a2 + -a2 } := by
        rw [adjust_balance_ok_findUser_other hadjC2 hsne]
        exact hfuc1
      have hfu3 : findUser db3 u =
          some { u0 with reserved := u0.reserved + a1 + a2 + -a2 } := by
        rw [hdb3, findUser_lotCloseFinish]
        exact hfuc2
      refine ⟨by rw [hl3eq], u0,
        { u0 with reserved := u0.reserved + a1 + a2 + -a2 }, hfu0, hfu3, ?_, ?_⟩
      · show u0.reserved + a1 + a2 + -a2 = u0.reserved + a1
        omega
      · intro hpos
        show u0.reserved < u0.reserved + a1 + a2 + -a2
        omega
    · rw [hhigh2] at hnone
      cases hnone

/-- C10 witness data: seller 1 and bidder 2; item auction 1 (item 7, qty 2)
and hero lot 1 (hero 9), each starting at price 100 with no bids yet. -/
def dbC10 : DB :=
  { users := [⟨1, 0, 0⟩, ⟨2, 100000, 0⟩], ledger := [],
    auctions := [⟨1, 7, 1, 2, 100, 100, 1000, AuctionStatus.active, none, 0⟩],
    lots := [], bids := [], autobids := [], heroes := [], hero_perks := [],
    stash := [], redis := [], nextBid := 1, nextHero := 1 }

def bC10a : BidRow := ⟨1, none, some 1, none, 2, 200⟩

def bC10b : BidRow := ⟨2, none, some 1, none, 2, 300⟩

/-- State after the first bid (200 by user 2). -/
def dbC10b1 : DB :=
  { users := [⟨1, 0, 0⟩, ⟨2, 100000, 200⟩],
    ledger := [⟨2, 200, "bid_reserve", some 1, MoneyField.reserved⟩],
    auctions := [⟨1, 7, 1, 2, 100, 200, 1000, AuctionStatus.active, some 2, 0⟩],
    lots := [], bids := [bC10a], autobids := [], heroes := [], hero_perks := [],
    stash := [], redis := [], nextBid := 2, nextHero := 1 }

/-- State after the self-overbid (300 by user 2, no release). -/
def dbC10b2 : DB :=
  { users := [⟨1, 0, 0⟩, ⟨2, 100000, 500⟩],
    ledger := [⟨2, 200, "bid_reserve", some 1, MoneyField.reserved⟩,
               ⟨2, 300, "bid_reserve", some 1, MoneyField.reserved⟩],
    auctions := [⟨1, 7, 1, 2, 100, 300, 1000, AuctionStatus.active, some 2, 0⟩],
    lots := [], bids := [bC10a, bC10b], autobids := [], heroes := [],
    hero_perks := [], stash := [], redis := [], nextBid := 3, nextHero := 1 }

def aC10r : AuctionRow := ⟨1, 7, 1, 2, 100, 300, 1000, AuctionStatus.finished, some 2, 0⟩

/-- State after close: only the highest amount 300 was released, so user 2
keeps reserved = 200 although no bid of theirs is outstanding. -/
def dbC10r : DB :=
  { users := [⟨1, 300, 0⟩, ⟨2, 100000, 200⟩],
    ledger := [⟨2, 200, "bid_reserve", some 1, MoneyField.reserved⟩,
               ⟨2, 300, "bid_reserve", some 1, MoneyField.reserved⟩,
               ⟨2, -300, "auction_release_reserved", some 1, MoneyField.reserved⟩,
               ⟨1, 300, "auction_payout", some 1, MoneyField.balance⟩],
    auctions := [aC10r], lots := [], bids := [bC10a, bC10b], autobids := [],
    heroes := [], hero_perks := [], stash := [⟨2, 7, 2⟩], redis := [],
    nextBid := 3, nextHero := 1 }

/-- Lot-side witness start state. -/
def dbC10L : DB :=
  { users := [⟨1, 0, 0⟩, ⟨2, 100000, 0⟩], ledger := [], auctions := [],
    lots := [⟨1, 9, 1, 100, 100, none, 1000, AuctionStatus.active, none⟩],
    bids := [], autobids := [],
    heroes := [⟨9, 1, 1, false, false, true, false, false⟩], hero_perks := [],
    stash := [], redis := [], nextBid := 1, nextHero := 10 }

def bC10La : BidRow := ⟨1, none, none, some 1, 2, 200⟩

def bC10Lb : BidRow := ⟨2, none, none, some 1, 2, 300⟩

def dbC10Lb1 : DB :=
  { users := [⟨1, 0, 0⟩, ⟨2, 100000, 200⟩],
    ledger := [⟨2, 200, "bid_reserve", some 1, MoneyField.reserved⟩],
    auctions := [],
    lots := [⟨1, 9, 1, 100, 200, none, 1000, AuctionStatus.active, some 2⟩],
    bids := [bC10La], autobids := [],
    heroes := [⟨9, 1, 1, false, false, true, false, false⟩], hero_perks := [],
    stash := [], redis := [], nextBid := 2, nextHero := 10 }

def dbC10Lb2 : DB :=
  { users := [⟨1, 0, 0⟩, ⟨2, 100000, 500⟩],
    ledger := [⟨2, 200, "bid_reserve", some 1, MoneyField.reserved⟩,
               ⟨2, 300, "bid_reserve", some 1, MoneyField.reserved⟩],
    auctions := [],
    lots := [⟨1, 9, 1, 100, 300, none, 1000, AuctionStatus.active, some 2⟩],
    bids := [bC10La, bC10Lb], autobids := [],
    heroes := [⟨9, 1, 1, false, false, true, false, false⟩], hero_perks := [],
    stash := [], redis := [], nextBid := 3, nextHero := 10 }

def lC10r : LotRow := ⟨1, 9, 1, 100, 300, none, 1000, AuctionStatus.finished, some 2⟩

def dbC10Lr : DB :=
  { users := [⟨1, 300, 0⟩, ⟨2, 100000, 200⟩],
    ledger := [⟨2, 200, "bid_reserve", some 1, MoneyField.reserved⟩,
               ⟨2, 300, "bid_reserve", some 1, MoneyField.reserved⟩,
               ⟨2, -300, "auction_release_reserved", some 1, MoneyField.reserved⟩,
               ⟨1, 300, "auction_payout", some 1, MoneyField.balance⟩],
    auctions := [], lots := [lC10r], bids := [bC10La, bC10Lb], autobids := [],
    heroes := [⟨9, 2, 1, false, false, false, false, false⟩], hero_perks := [],
    stash := [], redis := [], nextBid := 3, nextHero := 10 }

theorem self_overbid_residual_reservation_witness :
    (aC10r.winner_id = some 2 ∧
      ∃ r0 r3, findUser dbC10 2 = some r0 ∧ findUser dbC10r 2 = some r3 ∧
        r3.reserved = r0.reserved + 200 ∧
        ((0 : Int) < 200 → r0.reserved < r3.reserved)) ∧
    (lC10r.winner_id = some 2 ∧
      ∃ r0 r3, findUser dbC10L 2 = some r0 ∧ findUser dbC10Lr 2 = some r3 ∧
        r3.reserved = r0.reserved + 200 ∧
        ((0 : Int) < 200 → r0.reserved < r3.reserved)) :=
  ⟨self_overbid_residual_reservation.1 2 1 200 300 0 0 dbC10 dbC10b1 dbC10b2
      dbC10r bC10a bC10b aC10r (by decide) (by decide) (by decide) (by decide)
      (by decide),
   self_overbid_residual_reservation.2 2 1 200 300 0 0 dbC10L dbC10Lb1 dbC10Lb2
      dbC10Lr bC10La bC10Lb lC10r (by decide) (by decide) (by decide) (by decide)
      (by decide)⟩

end Arena
